import Mathlib

/-!
Shallow embedding of the abilities-assessment backend
(`backend/behavioral_processor.py`, `backend/mistral_analyzer.py`,
`backend/app.py`).  Python floats are modelled as exact rationals,
fallible Python code as `Except`-valued functions, and the two
external effects (the Ollama HTTP call and `json.loads`) as explicit
parameters.  `np.log2` is likewise passed as an explicit parameter
`log2 : Rat → Rat`, since no claim depends on its value.
-/

/-- Python exception kinds relevant to the embedded code. -/
inductive PErr where
  | attributeError
  | typeError
  | valueError
  | keyError
  | serviceError
deriving DecidableEq

/-- `Except.isOk` as a plain boolean. -/
def exceptOk {α : Type} : Except PErr α → Bool
  | .ok _ => true
  | .error _ => false

/-- Sequencing of fallible Python computations (exception
propagation). -/
def bindE {α β : Type} (x : Except PErr α) (f : α → Except PErr β) : Except PErr β :=
  match x with
  | .error e => .error e
  | .ok a => f a

/-- A Python `for`-loop / comprehension collecting fallible results
in order, stopping at the first exception. -/
def mapME {α β : Type} (f : α → Except PErr β) : List α → Except PErr (List β)
  | [] => .ok []
  | a :: t => bindE (f a) (fun b => bindE (mapME f t) (fun bs => .ok (b :: bs)))

theorem bindE_ok_iff {α β : Type} (x : Except PErr α) (f : α → Except PErr β) (v : β) :
    bindE x f = .ok v ↔ ∃ a, x = .ok a ∧ f a = .ok v := by
  cases x with
  | error e =>
    constructor
    · intro h; cases h
    · rintro ⟨a, ha, _⟩; cases ha
  | ok a =>
    constructor
    · intro h; exact ⟨a, rfl, h⟩
    · rintro ⟨b, hb, hf⟩
      obtain rfl := Except.ok.inj hb
      exact hf

theorem bindE_error {α β : Type} (e : PErr) (f : α → Except PErr β) :
    bindE (.error e) f = .error e := rfl

theorem bindE_ok {α β : Type} (a : α) (f : α → Except PErr β) :
    bindE (.ok a) f = f a := rfl

instance exceptDecEq {ε α : Type} [DecidableEq ε] [DecidableEq α] :
    DecidableEq (Except ε α) := fun x y =>
  match x, y with
  | .ok a, .ok b =>
    if h : a = b then .isTrue (by rw [h])
    else .isFalse (by intro he; exact h (Except.ok.inj he))
  | .ok _, .error _ => .isFalse (by intro he; exact Except.noConfusion he)
  | .error _, .ok _ => .isFalse (by intro he; exact Except.noConfusion he)
  | .error a, .error b =>
    if h : a = b then .isTrue (by rw [h])
    else .isFalse (by intro he; exact h (Except.error.inj he))

/-- Clamp to the unit interval: Python `max(0.0, min(1.0, x))`. -/
def clamp01 (x : Rat) : Rat := max 0 (min 1 x)

/-- Arithmetic mean, `np.mean` (callers only use it on nonempty lists). -/
def listMean (l : List Rat) : Rat := l.sum / (l.length : Rat)

/-- Python `max` over a nonempty list (0 on `[]`, never reached). -/
def listMax : List Rat → Rat
  | [] => 0
  | h :: t => t.foldl max h

/-- Python `min` over a nonempty list (0 on `[]`, never reached). -/
def listMin : List Rat → Rat
  | [] => 0
  | h :: t => t.foldl min h

/-- The typed view of the `data` dictionary of a game event: the five
keys the behavioral processor reads, each possibly absent
(`dict.get` with a default). -/
structure DataMap where
  x : Option Rat := none
  y : Option Rat := none
  choice : Option String := none
  choice_category : Option String := none
  input_type : Option String := none
deriving DecidableEq

/-- The value stored under `'data'`: either a mapping or some
non-mapping Python value (on which `.get` raises `AttributeError`). -/
inductive PyData where
  | map (m : DataMap)
  | notMapping
deriving DecidableEq

/-- An incoming event dictionary; `none` marks an absent key
(`event_dict.get(key, default)` supplies the default). -/
structure EventDict where
  event_type : Option String := none
  timestamp : Option Rat := none
  data : Option PyData := none
deriving DecidableEq

/-- `GameEvent` dataclass from `behavioral_processor.py`. -/
structure GameEvent where
  event_type : String
  timestamp : Rat
  data : PyData
deriving DecidableEq

/-- The dict-to-dataclass conversion at the top of `process_events`. -/
def toGameEvent (d : EventDict) : GameEvent :=
  { event_type := d.event_type.getD ""
    timestamp := d.timestamp.getD 0
    data := d.data.getD (.map {}) }

/-- `event.data.get('x', 0)`; raises `AttributeError` on a non-mapping. -/
def dataGetX : PyData → Except PErr Rat
  | .map m => .ok (m.x.getD 0)
  | .notMapping => .error .attributeError

/-- `event.data.get('y', 0)`. -/
def dataGetY : PyData → Except PErr Rat
  | .map m => .ok (m.y.getD 0)
  | .notMapping => .error .attributeError

/-- `event.data.get('choice', '')`. -/
def dataGetChoice : PyData → Except PErr String
  | .map m => .ok (m.choice.getD "")
  | .notMapping => .error .attributeError

/-- `event.data.get('choice_category', 'unknown')`. -/
def dataGetChoiceCategory : PyData → Except PErr String
  | .map m => .ok (m.choice_category.getD "unknown")
  | .notMapping => .error .attributeError

/-- `event.data.get('input_type', 'text')`. -/
def dataGetInputType : PyData → Except PErr String
  | .map m => .ok (m.input_type.getD "text")
  | .notMapping => .error .attributeError

/-- Append an event to its group, preserving dict insertion order
(`_group_events_by_type` body). -/
def addEvent (gs : List (String × List GameEvent)) (e : GameEvent) :
    List (String × List GameEvent) :=
  match gs with
  | [] => [(e.event_type, [e])]
  | (t, l) :: rest =>
    if t = e.event_type then (t, l ++ [e]) :: rest else (t, l) :: addEvent rest e

/-- `_group_events_by_type`. -/
def groupEventsByType (es : List GameEvent) : List (String × List GameEvent) :=
  es.foldl addEvent []

/-- `event_groups.get(event_type, [])`. -/
def getGroup (gs : List (String × List GameEvent)) (t : String) : List GameEvent :=
  (gs.lookup t).getD []

/-- Differences of consecutive timestamps:
`events[i].timestamp - events[i-1].timestamp` for `i = 1..len-1`. -/
def consecutiveDiffs (es : List GameEvent) : List Rat :=
  (es.zip es.tail).map (fun p => p.2.timestamp - p.1.timestamp)

/-- `_calculate_reaction_times`. -/
def calcReactionTimes (gs : List (String × List GameEvent)) : Rat :=
  let rts := (["click", "choice", "keypress"].map
    (fun t => (consecutiveDiffs (getGroup gs t)).filter
      (fun d => decide ((0.1 : Rat) < d ∧ d < 10)))).flatten
  if rts.isEmpty then 0.5
  else clamp01 (1 - (listMean rts - 0.5) / 3)

/-- Count occurrences, preserving first-occurrence order
(the `pattern_counts` dict). -/
def bumpCount : List (String × Nat) → String → List (String × Nat)
  | [], s => [(s, 1)]
  | (k, n) :: t, s => if k = s then (k, n + 1) :: t else (k, n) :: bumpCount t s

/-- The `pattern_counts` dictionary of `_calculate_decision_consistency`. -/
def countsOf (l : List String) : List (String × Nat) := l.foldl bumpCount []

/-- The value `_calculate_decision_consistency` computes from the
extracted choice categories. -/
def dcValue (log2 : Rat → Rat) (pats : List String) : Rat :=
  if (countsOf pats).length = 1 then 0.8
  else
    let total : Rat := (pats.length : Rat)
    let entropy := ((countsOf pats).map (fun c =>
      let p := (c.2 : Rat) / total
      if 0 < p then -(p * log2 p) else 0)).sum
    let maxEntropy :=
      if 1 < (countsOf pats).length then log2 (((countsOf pats).length : Nat) : Rat) else 1
    clamp01 (if 0 < maxEntropy then 1 - entropy / maxEntropy else 0.5)

/-- `_calculate_decision_consistency` (Shannon entropy of choice
categories; `np.log2` is the explicit `log2` parameter). -/
def calcDecisionConsistency (log2 : Rat → Rat)
    (gs : List (String × List GameEvent)) : Except PErr Rat :=
  if (getGroup gs "choice").length < 3 then .ok 0.5
  else
    bindE (mapME (fun e => dataGetChoiceCategory e.data) (getGroup gs "choice"))
      (fun pats => .ok (dcValue log2 pats))

/-- The mouse-coverage half of `_calculate_exploration_patterns`:
the starting neutral 0.5, possibly raised by screen coverage when
more than 10 positions were collected. -/
def explorationStep1 (gs : List (String × List GameEvent)) : Except PErr Rat :=
  if (getGroup gs "mouse_move").isEmpty then .ok 0.5
  else
    bindE (mapME (fun e =>
        bindE (dataGetX e.data) (fun x =>
          bindE (dataGetY e.data) (fun y => .ok (x, y)))) (getGroup gs "mouse_move"))
      (fun positions =>
        if 10 < positions.length then
          .ok (max 0.5 (min 1
            ((((listMax (positions.map Prod.fst) - listMin (positions.map Prod.fst))
              * (listMax (positions.map Prod.snd) - listMin (positions.map Prod.snd)))
              / (1920 * 1080)) * 2)))
        else .ok 0.5)

/-- `_calculate_exploration_patterns`. -/
def calcExploration (gs : List (String × List GameEvent)) : Except PErr Rat :=
  bindE (explorationStep1 gs) (fun e1 =>
    if (getGroup gs "choice").isEmpty then .ok (clamp01 e1)
    else
      bindE (mapME (fun e => dataGetChoice e.data) (getGroup gs "choice"))
        (fun choices =>
          .ok (clamp01 (if 0 < (getGroup gs "choice").length then
            (e1 + (choices.dedup.length : Rat) / ((getGroup gs "choice").length : Rat)) / 2
          else e1))))

/-- `_calculate_error_recovery` (reads only timestamps, hence pure). -/
def calcErrorRecovery (gs : List (String × List GameEvent)) : Rat :=
  let errs := getGroup gs "error"
  if errs.isEmpty then 0.7
  else
    let recoveries := errs.map (fun ee =>
      let et := ee.timestamp
      let subsequent := (getGroup gs "choice" ++ getGroup gs "click").filter
        (fun e => decide (et < e.timestamp ∧ e.timestamp < et + 30))
      if subsequent.isEmpty then (0.2 : Rat)
      else
        let recoveryTime := listMin (subsequent.map (fun e => e.timestamp - et))
        max 0 (1 - recoveryTime / 30))
    if recoveries.isEmpty then 0.5 else listMean recoveries

/-- Stable insertion keeping earlier-inserted events first among
equal timestamps. -/
def insertByTime (e : GameEvent) : List GameEvent → List GameEvent
  | [] => [e]
  | h :: t => if h.timestamp < e.timestamp then h :: insertByTime e t else e :: h :: t

/-- Stable sort by timestamp (`all_events.sort(key=lambda e: e.timestamp)`). -/
def sortByTime : List GameEvent → List GameEvent
  | [] => []
  | h :: t => insertByTime h (sortByTime t)

/-- `_calculate_task_persistence`. -/
def calcPersistence (gs : List (String × List GameEvent)) : Rat :=
  let allEvents := (gs.map Prod.snd).flatten
  if allEvents.isEmpty then 0.5
  else
    let sorted := sortByTime allEvents
    let intervals := (consecutiveDiffs sorted).filter
      (fun d => decide ((0.1 : Rat) < d ∧ d < 60))
    if intervals.isEmpty then 0.5
    else clamp01 (1 - (listMean intervals - 2) / 20)

/-- `_assess_creative_variety`. -/
def assessCreativeVariety (gs : List (String × List GameEvent)) : Except PErr Rat :=
  if (getGroup gs "creative_input").isEmpty then .ok 0.5
  else
    bindE (mapME (fun e => dataGetInputType e.data) (getGroup gs "creative_input"))
      (fun types => .ok (min 1 ((types.dedup.length : Rat) / 3)))

/-- The nine-key metrics dictionary returned by `process_events`. -/
structure Metrics where
  avg_reaction_time : Rat
  decision_consistency : Rat
  exploration_score : Rat
  error_recovery : Rat
  persistence : Rat
  logic_score : Rat
  creativity_score : Rat
  social_score : Rat
  technical_score : Rat
deriving DecidableEq

/-- The metrics dict as a key/value list in Python insertion order. -/
def Metrics.toAssoc (m : Metrics) : List (String × Rat) :=
  [("avg_reaction_time", m.avg_reaction_time),
   ("decision_consistency", m.decision_consistency),
   ("exploration_score", m.exploration_score),
   ("error_recovery", m.error_recovery),
   ("persistence", m.persistence),
   ("logic_score", m.logic_score),
   ("creativity_score", m.creativity_score),
   ("social_score", m.social_score),
   ("technical_score", m.technical_score)]

/-- The initial all-neutral metrics dict of `process_events`. -/
def defaultMetrics : Metrics :=
  { avg_reaction_time := 0.5, decision_consistency := 0.5, exploration_score := 0.5
    error_recovery := 0.5, persistence := 0.5, logic_score := 0.5
    creativity_score := 0.5, social_score := 0.5, technical_score := 0.5 }

/-- `BehavioralDataProcessor.process_events` composed with
`_derive_ability_scores`.  Raising subcomputations are sequenced in
Python evaluation order (consistency, exploration, creative variety);
the purely timestamp-based metrics cannot raise. -/
def buildMetrics (gs : List (String × List GameEvent)) (dc ex variety : Rat) : Metrics :=
  { avg_reaction_time := calcReactionTimes gs
    decision_consistency := dc
    exploration_score := ex
    error_recovery := calcErrorRecovery gs
    persistence := calcPersistence gs
    logic_score := clamp01 (dc * 0.4 + (1 - calcReactionTimes gs) * 0.3
      + calcErrorRecovery gs * 0.3)
    creativity_score := clamp01 (ex * 0.5 + (1 - dc) * 0.3 + variety * 0.2)
    social_score := clamp01 (calcErrorRecovery gs * 0.4 + calcPersistence gs * 0.3
      + 0.5 * 0.3)
    technical_score := clamp01 (calcReactionTimes gs * 0.4 + dc * 0.4
      + calcPersistence gs * 0.2) }

def process_events (log2 : Rat → Rat) (events : List EventDict) : Except PErr Metrics :=
  if (events.map toGameEvent).isEmpty then .ok defaultMetrics
  else
    match calcDecisionConsistency log2 (groupEventsByType (events.map toGameEvent)) with
    | .error e => .error e
    | .ok dc =>
      match calcExploration (groupEventsByType (events.map toGameEvent)) with
      | .error e => .error e
      | .ok ex =>
        match assessCreativeVariety (groupEventsByType (events.map toGameEvent)) with
        | .error e => .error e
        | .ok variety =>
          .ok (buildMetrics (groupEventsByType (events.map toGameEvent)) dc ex variety)

/-! ## JSON values and the bits of Python dynamic semantics the
analyzer touches (`mistral_analyzer.py`). -/

/-- The values `json.loads` can produce. -/
inductive Json where
  | null
  | bool (b : Bool)
  | num (q : Rat)
  | str (s : String)
  | arr (l : List Json)
  | obj (l : List (String × Json))

/-- Contiguous-substring test: Python `needle in haystack` on strings. -/
def charsInfixOf : List Char → List Char → Bool
  | n, [] => n.isEmpty
  | n, h :: t => n.isPrefixOf (h :: t) || charsInfixOf n t

/-- Python `key in container` for a string key: dict key lookup,
list membership, substring test; `TypeError` on numbers and `None`. -/
def pyContains (j : Json) (key : String) : Except PErr Bool :=
  match j with
  | .obj l => .ok (decide (key ∈ l.map Prod.fst))
  | .arr l => .ok (l.any (fun v => match v with | .str s => s == key | _ => false))
  | .str s => .ok (charsInfixOf key.toList s.toList)
  | _ => .error .typeError

/-- Short-circuiting `all(key in j for key in keys)`. -/
def pyAll (j : Json) : List String → Except PErr Bool
  | [] => .ok true
  | k :: rest =>
    bindE (pyContains j k) (fun b => if b then pyAll j rest else .ok false)

/-- Python `container[key]` for a string key; only dictionaries
support it (`KeyError` when absent, `TypeError` otherwise). -/
def pyGetItem (j : Json) (key : String) : Except PErr Json :=
  match j with
  | .obj l =>
    match l.lookup key with
    | some v => .ok v
    | none => .error .keyError
  | _ => .error .typeError

/-- Replace the value of an existing key in place, append otherwise
(CPython dict assignment). -/
def objSet : List (String × Json) → String → Json → List (String × Json)
  | [], k, v => [(k, v)]
  | (k', v') :: t, k, v =>
    if k' = k then (k, v) :: t else (k', v') :: objSet t k v

/-- Python `container[key] = value`; only dictionaries support it. -/
def pySetItem (j : Json) (key : String) (v : Json) : Except PErr Json :=
  match j with
  | .obj l => .ok (.obj (objSet l key v))
  | _ => .error .typeError

/-- Python `len(...)`: strings, lists and dicts have a length,
numbers/booleans/`None` raise `TypeError`. -/
def pyLen (j : Json) : Except PErr Nat :=
  match j with
  | .str s => .ok s.length
  | .arr l => .ok l.length
  | .obj l => .ok l.length
  | _ => .error .typeError

/-- Value of a decimal digit string. -/
def digitsVal (l : List Char) : Option Nat :=
  if l.isEmpty then none
  else if l.all Char.isDigit
  then some (l.foldl (fun n c => n * 10 + (c.toNat - 48)) 0)
  else none

/-- Mantissa of a decimal literal: `digits`, `digits.digits`,
`.digits` or `digits.`. -/
def parseMantissa (l : List Char) : Option Rat :=
  let ip := l.takeWhile (fun c => c ≠ '.')
  let rest := l.drop ip.length
  match rest with
  | [] => (digitsVal ip).map (fun n => (n : Rat))
  | _ :: fp =>
    if ip.isEmpty ∧ fp.isEmpty then none
    else if ip.all Char.isDigit ∧ fp.all Char.isDigit then
      some ((ip.foldl (fun n c => n * 10 + (c.toNat - 48)) 0 : Nat)
        + ((fp.foldl (fun n c => n * 10 + (c.toNat - 48)) 0 : Nat) : Rat)
          / ((10 : Rat) ^ fp.length))
    else none

/-- Optionally signed decimal exponent. -/
def parseExponent (l : List Char) : Option Int :=
  match l with
  | '+' :: r => (digitsVal r).map (fun n => (n : Int))
  | '-' :: r => (digitsVal r).map (fun n => -(n : Int))
  | r => (digitsVal r).map (fun n => (n : Int))

/-- Unsigned decimal float literal with optional exponent. -/
def parseUnsignedFloat (l : List Char) : Option Rat :=
  let mant := l.takeWhile (fun c => c ≠ 'e' ∧ c ≠ 'E')
  let rest := l.drop mant.length
  match rest with
  | [] => parseMantissa mant
  | _ :: ex =>
    match parseMantissa mant, parseExponent ex with
    | some m, some e =>
      some (if 0 ≤ e then m * (10 : Rat) ^ e.toNat else m / (10 : Rat) ^ (-e).toNat)
    | _, _ => none

/-- Python `float(s)` on the decimal literals relevant here:
surrounding whitespace is ignored, an optional sign precedes the
literal (`inf`/`nan` and underscore separators are out of scope). -/
def parsePyFloat (s : String) : Option Rat :=
  let l := ((s.toList.dropWhile Char.isWhitespace).reverse.dropWhile
    Char.isWhitespace).reverse
  match l with
  | '+' :: r => parseUnsignedFloat r
  | '-' :: r => (parseUnsignedFloat r).map Neg.neg
  | r => parseUnsignedFloat r

/-- Python `float(x)`: numbers pass through, booleans coerce to 0/1,
numeric strings are parsed, everything else raises. -/
def pyFloat (j : Json) : Except PErr Rat :=
  match j with
  | .num q => .ok q
  | .bool b => .ok (if b then 1 else 0)
  | .str s =>
    match parsePyFloat s with
    | some q => .ok q
    | none => .error .valueError
  | _ => .error .typeError

/-- `mistral_response.find('{')`, `mistral_response.rfind('}') + 1`
and the slice between them; `none` when either brace is absent. -/
def braceSpan (s : String) : Option (List Char) :=
  let l := s.toList
  match l.findIdx? (fun c => c == '{'), (l.reverse.findIdx? (fun c => c == '}')) with
  | some st, some ri =>
    let en := l.length - 1 - ri + 1
    some ((l.drop st).take (en - st))
  | _, _ => none

/-- The three required top-level keys of an analysis result. -/
def requiredAnalysisKeys : List String := ["ability_scores", "confidence", "insights"]

/-- The five canonical ability keys. -/
def abilityKeys : List String := ["analytical", "creative", "social", "technical", "research"]

/-- The normalization loop of `_parse_analysis_result`: for each
ability, re-read `result['ability_scores']`, coerce the score to
float, clamp it to `[0, 100]` and write it back. -/
def normalizeScores : Json → List String → Except PErr Json
  | r, [] => .ok r
  | r, a :: rest =>
    bindE (pyGetItem r "ability_scores") (fun scoresJ =>
      bindE (pyGetItem scoresJ a) (fun v =>
        bindE (pyFloat v) (fun f =>
          bindE (pySetItem scoresJ a (.num (max 0 (min 100 f)))) (fun scoresJ2 =>
            bindE (pySetItem r "ability_scores" scoresJ2) (fun r2 =>
              normalizeScores r2 rest)))))

/-- Validation of a decoded analysis payload (`_parse_analysis_result`
after `json.loads`). -/
def parseAnalysisJson (result : Json) : Except PErr Json :=
  bindE (pyAll result requiredAnalysisKeys) (fun ok1 =>
    if ok1 then
      bindE (pyGetItem result "ability_scores") (fun scores0 =>
        bindE (pyAll scores0 abilityKeys) (fun ok2 =>
          if ok2 then
            bindE (normalizeScores result abilityKeys) (fun result2 =>
              bindE (pyGetItem result2 "confidence") (fun conf =>
                bindE (pyFloat conf) (fun c =>
                  pySetItem result2 "confidence" (.num (clamp01 c)))))
          else .error .valueError))
    else .error .valueError)

/-- `_parse_analysis_result`; `loads` stands for `json.loads`
(`none` models a `JSONDecodeError`). -/
def parse_analysis_result (loads : String → Option Json) (mistralResponse : String) :
    Except PErr Json :=
  match braceSpan mistralResponse with
  | none => .error .valueError
  | some span =>
    match loads (String.mk span) with
    | none => .error .valueError
    | some result => parseAnalysisJson result

/-- Validation of a decoded question payload
(`_parse_question_result` after `json.loads`); `now` stands for
`datetime.now().isoformat()`. -/
def parseQuestionJson (result : Json) (stageName now : String) : Except PErr Json :=
  bindE (pyContains result "question") (fun b1 =>
    if b1 then
      bindE (pyContains result "choices") (fun b2 =>
        if b2 then
          bindE (pyGetItem result "choices") (fun choicesJ =>
            bindE (pyLen choicesJ) (fun n =>
              if n < 2 then .error .valueError
              else
                bindE (pySetItem result "stage" (.str stageName)) (fun r1 =>
                  pySetItem r1 "generated_at" (.str now))))
        else .error .valueError)
    else .error .valueError)

/-- `_parse_question_result`. -/
def parse_question_result (loads : String → Option Json) (mistralResponse : String)
    (stageName now : String) : Except PErr Json :=
  match braceSpan mistralResponse with
  | none => .error .valueError
  | some span =>
    match loads (String.mk span) with
    | none => .error .valueError
    | some result => parseQuestionJson result stageName now

/-- `behavioral_data.get(key, default)` on a well-typed metrics dict. -/
def bget (b : List (String × Rat)) (k : String) (d : Rat) : Rat :=
  (b.lookup k).getD d

/-- `_generate_fallback_analysis`. -/
def generate_fallback_analysis (behavioralData : List (String × Rat)) : Json :=
  .obj
    [("ability_scores", .obj
      [("analytical", .num (bget behavioralData "logic_score" 0.5 * 100)),
       ("creative", .num (bget behavioralData "creativity_score" 0.5 * 100)),
       ("social", .num (bget behavioralData "social_score" 0.5 * 100)),
       ("technical", .num (bget behavioralData "technical_score" 0.5 * 100)),
       ("research", .num (bget behavioralData "exploration_score" 0.5 * 100))]),
     ("confidence", .num 0.6),
     ("insights", .arr
       [.str "Аналіз базується лише на поведінкових даних",
        .str "Результати можуть бути менш точними без AI інтерпретації"])]

/-- `analyze_responses`: build the prompt (pure), call the model —
`callResult` stands for the awaited `_call_ollama` outcome — and
parse; every exception from the call or the parse is caught and
replaced by the behavioral-only fallback. -/
def analyze_responses (loads : String → Option Json)
    (callResult : Except PErr String)
    (behavioralData : List (String × Rat)) : Except PErr Json :=
  match callResult with
  | .error _ => .ok (generate_fallback_analysis behavioralData)
  | .ok text =>
    match parse_analysis_result loads text with
    | .error _ => .ok (generate_fallback_analysis behavioralData)
    | .ok result => .ok result

/-- `str.lower()` per code point, covering the ASCII and Cyrillic
letters that occur in this code base (a per-character model of
Python's lowercasing; in particular it preserves length). -/
def pyLowerChar (c : Char) : Char :=
  if 'A' ≤ c ∧ c ≤ 'Z' then Char.ofNat (c.toNat + 32)
  else if 0x410 ≤ c.toNat ∧ c.toNat ≤ 0x42F then Char.ofNat (c.toNat + 0x20)
  else if 0x400 ≤ c.toNat ∧ c.toNat ≤ 0x40F then Char.ofNat (c.toNat + 0x50)
  else if c.toNat = 0x490 then Char.ofNat 0x491
  else c

/-- `s.lower()`. -/
def pyLower (s : String) : String := String.mk (s.toList.map pyLowerChar)

/-- Python `question_data.get('question', '')`: dictionaries support
`.get`, anything else raises `AttributeError`. -/
def pyDictGet (j : Json) (k : String) (d : Json) : Except PErr Json :=
  match j with
  | .obj l => .ok ((l.lookup k).getD d)
  | _ => .error .attributeError

/-- `_is_duplicate_question`: with a nonempty cache, lower-case the
new question's text, and flag a duplicate when both texts are longer
than 30 characters and the new text's first 50 lowered characters
occur inside the cached text's first 50 lowered characters. -/
def is_duplicate_question (questionData : Json) (previousQuestions : List String) :
    Except PErr Bool :=
  if previousQuestions.isEmpty then .ok false
  else
    match pyDictGet questionData "question" (.str "") with
    | .error e => .error e
    | .ok (.str q) =>
      let cur := pyLower q
      .ok (previousQuestions.any (fun prev =>
        decide (30 < cur.length) && decide (30 < prev.length)
          && charsInfixOf (cur.toList.take 50) ((pyLower prev).toList.take 50)))
    | .ok _ => .error .attributeError

/-- One choice entry of a fallback question. -/
def choiceObj (text category : String) (weight : Rat) : Json :=
  .obj [("text", .str text), ("category", .str category), ("weight", .num weight)]

/-- The static fallback table of `_generate_fallback_question`
(`fallback_questions.get(stage_name, fallback_questions["analytical"])`). -/
def fallbackQuestionBase (stageName : String) : List (String × Json) :=
  if stageName = "analytical" then
    [("question", .str "Ваша команда стикається з технічною проблемою перед важливим дедлайном. Як ви поступите?"),
     ("choices", .arr
       [choiceObj "Детально проаналізую проблему та знайду оптимальне рішення" "analytical" 0.9,
        choiceObj "Організую мозковий штурм для пошуку креативних рішень" "creative" 0.7,
        choiceObj "Звернуся до колег за консультацією" "social" 0.6,
        choiceObj "Застосую швидке тимчасове рішення" "technical" 0.8])]
  else if stageName = "creative" then
    [("question", .str "Клієнт просить презентувати складний продукт простими словами. Ваш підхід?"),
     ("choices", .arr
       [choiceObj "Використаю метафори та візуальні образи" "creative" 0.9,
        choiceObj "Створю логічну структуру пояснення" "analytical" 0.7,
        choiceObj "Адаптую стиль під аудиторію" "social" 0.8,
        choiceObj "Покажу практичні приклади" "technical" 0.6])]
  else if stageName = "social" then
    [("question", .str "Під час зустрічі виникає конфлікт між колегами. Ваша реакція?"),
     ("choices", .arr
       [choiceObj "Допоможу знайти компроміс та заспокою ситуацію" "social" 0.9,
        choiceObj "Проаналізую причини конфлікту" "analytical" 0.7,
        choiceObj "Запропоную творчий вихід із ситуації" "creative" 0.6,
        choiceObj "Застосую стандартні процедури" "technical" 0.5])]
  else
    [("question", .str "Ваша команда стикається з технічною проблемою перед важливим дедлайном. Як ви поступите?"),
     ("choices", .arr
       [choiceObj "Детально проаналізую проблему та знайду оптимальне рішення" "analytical" 0.9,
        choiceObj "Організую мозковий штурм для пошуку креативних рішень" "creative" 0.7,
        choiceObj "Звернуся до колег за консультацією" "social" 0.6,
        choiceObj "Застосую швидке тимчасове рішення" "technical" 0.8])]

/-- `_generate_fallback_question`: the table entry for the stage
("analytical" when unrecognized) with `type`, `stage` and
`generated_at` set on it. -/
def generate_fallback_question (stageName now : String) : Json :=
  .obj (fallbackQuestionBase stageName ++
    [("type", .str "multiple_choice"), ("stage", .str stageName),
     ("generated_at", .str now)])

/-- One generation attempt of `generate_question`: a failed call, a
failed parse or a raising duplicate check is caught (`none`), a
parsed duplicate is rejected (`none`), a parsed fresh question is
returned. -/
def attemptQuestion (loads : String → Option Json) (stageName now : String)
    (prev : List String) (callResult : Except PErr String) : Option Json :=
  match callResult with
  | .error _ => none
  | .ok text =>
    match parse_question_result loads text stageName now with
    | .error _ => none
    | .ok qd =>
      match is_duplicate_question qd prev with
      | .error _ => none
      | .ok true => none
      | .ok false => some qd

/-- The attempt loop of `generate_question` (the cached question
list only grows on success, so it is constant across failed
attempts). -/
def generateQuestionGo (loads : String → Option Json) (stageName now : String)
    (prev : List String) : List (Except PErr String) → Json
  | [] => generate_fallback_question stageName now
  | o :: rest =>
    match attemptQuestion loads stageName now prev o with
    | some qd => qd
    | none => generateQuestionGo loads stageName now prev rest

/-- `generate_question`: at most 3 attempts (the first three call
outcomes), then the static fallback. -/
def generate_question (loads : String → Option Json) (stageName now : String)
    (callResults : List (Except PErr String)) (prev : List String) : Json :=
  generateQuestionGo loads stageName now prev (callResults.take 3)

/-! ## `app.py`: fusing behavioral metrics with the model analysis. -/

/-- Python 3 `round(x, 1)` on exact values: banker's rounding to one
decimal place. -/
def pyRoundHalfEven (x : Rat) : Int :=
  let n := x.floor
  let d := x - (n : Rat)
  if d < 1 / 2 then n
  else if 1 / 2 < d then n + 1
  else if n % 2 = 0 then n else n + 1

/-- `round(value, 1)`. -/
def pyRound1 (x : Rat) : Rat := ((pyRoundHalfEven (x * 10) : Int) : Rat) / 10

/-- A model analysis result as `combine_analysis_results` consumes
it: the documented `AnalysisResult` shape, each key possibly absent. -/
structure ModelAnalysis where
  ability_scores : Option (List (String × Rat)) := none
  confidence : Option Rat := none
  insights : Option (List String) := none

/-- The `AbilityProfile` pydantic model. -/
structure AbilityProfile where
  analytical : Rat
  creative : Rat
  social : Rat
  technical : Rat
  research : Rat
  confidence : Rat
  insights : List String

/-- The weighted score of one ability inside
`combine_analysis_results`. -/
def fusedScore (behavioralScores mistralScores : List (String × Rat))
    (ability : String) : Rat :=
  let behavioralVal := bget behavioralScores ability 0.5 * 100
  let mistralVal := bget mistralScores ability 50
  pyRound1 (0.6 * mistralVal + 0.4 * behavioralVal)

/-- `combine_analysis_results` from `app.py`. -/
def combine_analysis_results (behavioralMetrics : List (String × Rat))
    (mistralAnalysis : ModelAnalysis) : AbilityProfile :=
  let behavioralScores :=
    [("analytical", bget behavioralMetrics "logic_score" 0.5),
     ("creative", bget behavioralMetrics "creativity_score" 0.5),
     ("social", bget behavioralMetrics "social_score" 0.5),
     ("technical", bget behavioralMetrics "technical_score" 0.5),
     ("research", bget behavioralMetrics "exploration_score" 0.5)]
  let mistralScores := mistralAnalysis.ability_scores.getD []
  { analytical := fusedScore behavioralScores mistralScores "analytical"
    creative := fusedScore behavioralScores mistralScores "creative"
    social := fusedScore behavioralScores mistralScores "social"
    technical := fusedScore behavioralScores mistralScores "technical"
    research := fusedScore behavioralScores mistralScores "research"
    confidence := mistralAnalysis.confidence.getD 0.75
    insights := mistralAnalysis.insights.getD [] }

/-- Field access on an object value (used to state properties of
returned payloads). -/
def jsonField (j : Json) (k : String) : Option Json :=
  match j with
  | .obj l => l.lookup k
  | _ => none

/-- Spec-side predicate: `float(v)` succeeds on this value. -/
def floatOk (v : Json) : Prop := ∃ q, pyFloat v = .ok q

/-- Spec-side predicate for the amended C6: the exact acceptance
condition of the analysis parser on a decoded payload — a dictionary
with the three required keys, whose `ability_scores` is itself a
dictionary holding all five canonical abilities with float-coercible
values, and whose `confidence` is float-coercible. -/
def analysisOkCond (j : Json) : Prop :=
  ∃ l sl, j = .obj l
    ∧ (∀ k ∈ requiredAnalysisKeys, (l.lookup k).isSome = true)
    ∧ l.lookup "ability_scores" = some (.obj sl)
    ∧ (∀ a ∈ abilityKeys, ∃ v, sl.lookup a = some v ∧ floatOk v)
    ∧ (∃ c, l.lookup "confidence" = some c ∧ floatOk c)

/-- Spec-side predicate for the amended C6: the exact acceptance
condition of the question parser — a dictionary containing a
`question` key and a `choices` value that has a Python length of at
least 2. -/
def questionOkCond (j : Json) : Prop :=
  ∃ l, j = .obj l
    ∧ (l.lookup "question").isSome = true
    ∧ ∃ c, l.lookup "choices" = some c ∧ ∃ n, pyLen c = .ok n ∧ 2 ≤ n

/-! ## Supporting lemmas -/

theorem braceSpan_eq_none (s : String)
    (h : ('{' ∈ s.toList → False) ∨ ('}' ∈ s.toList → False)) :
    braceSpan s = none := by
  simp only [braceSpan]
  cases h with
  | inl h =>
    have hf : s.toList.findIdx? (fun c => c == '{') = none := by
      rw [List.findIdx?_eq_none_iff]
      intro x hx
      simp only [beq_eq_false_iff_ne, ne_eq]
      exact fun hc => h (hc ▸ hx)
    rw [hf]
  | inr h =>
    have hf : s.toList.reverse.findIdx? (fun c => c == '}') = none := by
      rw [List.findIdx?_eq_none_iff]
      intro x hx
      simp only [beq_eq_false_iff_ne, ne_eq]
      exact fun hc => h (hc ▸ (List.mem_reverse.mp hx))
    rw [hf]
    cases hr : (s.toList.findIdx? (fun c => c == '{')) <;> rfl

theorem getGroup_nil (t : String) : getGroup [] t = [] := rfl

theorem getGroup_cons (tk : String) (lk : List GameEvent)
    (rest : List (String × List GameEvent)) (t : String) :
    getGroup ((tk, lk) :: rest) t = if t = tk then lk else getGroup rest t := by
  by_cases h : t = tk
  · simp [getGroup, List.lookup, h]
  · have hb : (t == tk) = false := by simpa using h
    simp [getGroup, List.lookup, hb, h]

theorem getGroup_addEvent (gs : List (String × List GameEvent)) (e : GameEvent)
    (t : String) :
    getGroup (addEvent gs e) t =
      if e.event_type = t then getGroup gs t ++ [e] else getGroup gs t := by
  induction gs with
  | nil =>
    rw [show addEvent [] e = [(e.event_type, [e])] from rfl, getGroup_cons, getGroup_nil]
    by_cases h : e.event_type = t
    · rw [if_pos h.symm, if_pos h]; rfl
    · rw [if_neg (fun hc => h hc.symm), if_neg h]
  | cons p rest ih =>
    obtain ⟨tk, lk⟩ := p
    by_cases h1 : tk = e.event_type
    · rw [show addEvent ((tk, lk) :: rest) e = (tk, lk ++ [e]) :: rest from by
        simp [addEvent, h1], getGroup_cons, getGroup_cons]
      by_cases h2 : t = tk
      · rw [if_pos h2, if_pos (h1.symm.trans h2.symm), if_pos h2]
      · rw [if_neg h2, if_neg h2,
          if_neg (show ¬ e.event_type = t from fun hc => h2 (h1.trans hc).symm)]
    · rw [show addEvent ((tk, lk) :: rest) e = (tk, lk) :: addEvent rest e from by
        simp [addEvent, h1], getGroup_cons, getGroup_cons, ih]
      by_cases h2 : t = tk
      · rw [if_pos h2,
          if_neg (show ¬ e.event_type = t from fun hc => h1 (hc.trans h2).symm),
          if_pos h2]
      · rw [if_neg h2, if_neg h2]

theorem getGroup_foldl (l : List GameEvent) :
    ∀ (acc : List (String × List GameEvent)) (t : String),
      getGroup (l.foldl addEvent acc) t =
        getGroup acc t ++ l.filter (fun e => e.event_type == t) := by
  induction l with
  | nil => intro acc t; simp
  | cons e l ih =>
    intro acc t
    rw [List.foldl_cons, ih, getGroup_addEvent]
    by_cases h : e.event_type = t
    · simp [h, List.filter_cons]
    · simp [h, List.filter_cons, beq_iff_eq]

theorem getGroup_groupEventsByType (l : List GameEvent) (t : String) :
    getGroup (groupEventsByType l) t = l.filter (fun e => e.event_type == t) := by
  unfold groupEventsByType
  rw [getGroup_foldl]
  rfl

theorem clamp01_nonneg (x : Rat) : 0 ≤ clamp01 x := le_max_left 0 _

theorem clamp01_le_one (x : Rat) : clamp01 x ≤ 1 := by
  unfold clamp01
  rw [max_le_iff]
  exact ⟨by norm_num, min_le_left 1 x⟩

/-! ## C1 -/

/-- C1: for every behavioral metric map and model analysis result,
the fused profile scores each canonical ability as
`round(0.6 * model_value + 0.4 * behavioral_value, 1)` with the
documented defaults, passes confidence and insights through, and on
`logic_score = 0.8`, `analytical = 90` produces 86.0. -/
theorem combine_analysis_fusion (b : List (String × Rat)) (m : ModelAnalysis) :
    (combine_analysis_results b m).analytical
        = pyRound1 (0.6 * bget (m.ability_scores.getD []) "analytical" 50
            + 0.4 * (bget b "logic_score" 0.5 * 100))
    ∧ (combine_analysis_results b m).creative
        = pyRound1 (0.6 * bget (m.ability_scores.getD []) "creative" 50
            + 0.4 * (bget b "creativity_score" 0.5 * 100))
    ∧ (combine_analysis_results b m).social
        = pyRound1 (0.6 * bget (m.ability_scores.getD []) "social" 50
            + 0.4 * (bget b "social_score" 0.5 * 100))
    ∧ (combine_analysis_results b m).technical
        = pyRound1 (0.6 * bget (m.ability_scores.getD []) "technical" 50
            + 0.4 * (bget b "technical_score" 0.5 * 100))
    ∧ (combine_analysis_results b m).research
        = pyRound1 (0.6 * bget (m.ability_scores.getD []) "research" 50
            + 0.4 * (bget b "exploration_score" 0.5 * 100))
    ∧ (combine_analysis_results b m).confidence = m.confidence.getD 0.75
    ∧ (combine_analysis_results b m).insights = m.insights.getD []
    ∧ (combine_analysis_results [("logic_score", 0.8)]
        { ability_scores := some [("analytical", 90)] }).analytical = 86 := by
  refine ⟨rfl, rfl, rfl, rfl, rfl, rfl, rfl, ?_⟩
  with_unfolding_all decide

/-! ## C7 -/

/-- C7: `process_events` on the empty event list yields exactly 0.5
for each of the nine metric keys. -/
theorem process_events_empty (log2 : Rat → Rat) :
    process_events log2 [] = .ok defaultMetrics
    ∧ defaultMetrics.toAssoc =
      [("avg_reaction_time", 0.5), ("decision_consistency", 0.5),
       ("exploration_score", 0.5), ("error_recovery", 0.5), ("persistence", 0.5),
       ("logic_score", 0.5), ("creativity_score", 0.5), ("social_score", 0.5),
       ("technical_score", 0.5)] :=
  ⟨rfl, rfl⟩

/-! ## C2 -/

/-- C2 counterexample: the empty event list contains no `error`
event, yet `process_events` returns `error_recovery = 0.5`, not 0.7. -/
theorem error_recovery_empty_counterexample :
    (([] : List EventDict).all (fun e => (toGameEvent e).event_type != "error")) = true
    ∧ process_events (fun _ => 0) [] = .ok defaultMetrics
    ∧ defaultMetrics.error_recovery = 0.5
    ∧ ((0.5 : Rat) = 0.7 → False) := by
  refine ⟨rfl, rfl, rfl, ?_⟩
  with_unfolding_all decide

/-- C2 (amended): on every NON-EMPTY event list with no `error`
event on which `process_events` returns, `error_recovery` is exactly
0.7. -/
theorem error_recovery_no_errors (log2 : Rat → Rat) (events : List EventDict)
    (m : Metrics) (hne : events ≠ [])
    (hno : ∀ e ∈ events, (toGameEvent e).event_type ≠ "error")
    (h : process_events log2 events = .ok m) :
    m.error_recovery = 0.7 := by
  unfold process_events at h
  have hpes : (events.map toGameEvent).isEmpty = false := by
    cases events with
    | nil => exact absurd rfl hne
    | cons a l => rfl
  rw [hpes] at h
  simp only [Bool.false_eq_true, if_false] at h
  have hfil : (events.map toGameEvent).filter (fun e => e.event_type == "error") = [] := by
    rw [List.filter_eq_nil_iff]
    intro e he
    obtain ⟨e0, he0, rfl⟩ := List.mem_map.mp he
    simpa using hno e0 he0
  have her : calcErrorRecovery (groupEventsByType (events.map toGameEvent)) = 0.7 := by
    unfold calcErrorRecovery
    rw [getGroup_groupEventsByType, hfil]
    rfl
  cases hdc : calcDecisionConsistency log2 (groupEventsByType (events.map toGameEvent)) with
  | error e => rw [hdc] at h; cases h
  | ok dc =>
    rw [hdc] at h
    cases hex : calcExploration (groupEventsByType (events.map toGameEvent)) with
    | error e => rw [hex] at h; cases h
    | ok ex =>
      rw [hex] at h
      cases hv : assessCreativeVariety (groupEventsByType (events.map toGameEvent)) with
      | error e => rw [hv] at h; cases h
      | ok variety =>
        rw [hv] at h
        cases h
        exact her

/-- C2 witness: a single non-error click event. -/
theorem error_recovery_no_errors_witness :
    process_events (fun _ => 0)
        [{ event_type := some "click", timestamp := some 1, data := none }]
      = .ok { avg_reaction_time := 0.5, decision_consistency := 0.5
              exploration_score := 0.5, error_recovery := 0.7, persistence := 0.5
              logic_score := 0.56, creativity_score := 0.5, social_score := 0.58
              technical_score := 0.5 }
    ∧ ({ avg_reaction_time := 0.5, decision_consistency := 0.5
         exploration_score := 0.5, error_recovery := 0.7, persistence := 0.5
         logic_score := 0.56, creativity_score := 0.5, social_score := 0.58
         technical_score := 0.5 } : Metrics).error_recovery = 0.7 := by
  constructor
  · with_unfolding_all decide
  · exact error_recovery_no_errors (fun _ => 0)
      [{ event_type := some "click", timestamp := some 1, data := none }] _
      (by simp) (by intro e he; simp at he; subst he; simp [toGameEvent])
      (by with_unfolding_all decide)

/-! ## C3 -/

/-- C3 counterexample: with the inference call failing,
`analyze_responses` does not fail outward — it returns the
behavioral-only fallback successfully. -/
theorem analyze_responses_no_raise_counterexample :
    analyze_responses (fun _ => none) (.error .serviceError) []
      = .ok (generate_fallback_analysis [])
    ∧ exceptOk (analyze_responses (fun _ => none) (.error .serviceError) []) = true :=
  ⟨rfl, rfl⟩

/-- C3 (amended): when the inference call raises, or the parse of
the generated text fails, `analyze_responses` catches the failure
itself and returns the behavioral-only fallback result instead of
raising to its caller. -/
theorem analyze_responses_fallback_on_failure (loads : String → Option Json)
    (b : List (String × Rat)) :
    (∀ e : PErr, analyze_responses loads (.error e) b
      = .ok (generate_fallback_analysis b))
    ∧ ∀ text : String, exceptOk (parse_analysis_result loads text) = false →
        analyze_responses loads (.ok text) b = .ok (generate_fallback_analysis b) := by
  constructor
  · intro e; rfl
  · intro text h
    cases hp : parse_analysis_result loads text with
    | error e => simp [analyze_responses, hp]
    | ok r => rw [hp] at h; cases h

/-! ## C8 -/

theorem listMean_mem_unit (l : List Rat) (hne : l ≠ [])
    (h : ∀ x ∈ l, 0 ≤ x ∧ x ≤ 1) : 0 ≤ listMean l ∧ listMean l ≤ 1 := by
  have hlen : 0 < (l.length : Rat) := by
    have := List.length_pos.mpr hne
    exact_mod_cast this
  constructor
  · exact div_nonneg (List.sum_nonneg (fun x hx => (h x hx).1)) (le_of_lt hlen)
  · rw [listMean, div_le_one hlen]
    have := List.sum_le_card_nsmul l 1 (fun x hx => (h x hx).2)
    simpa using this

theorem foldl_min_nonneg (t : List Rat) :
    ∀ acc : Rat, 0 ≤ acc → (∀ x ∈ t, 0 ≤ x) → 0 ≤ t.foldl min acc := by
  induction t with
  | nil => intro acc hacc _; exact hacc
  | cons a t ih =>
    intro acc hacc h
    exact ih (min acc a) (le_min hacc (h a (List.mem_cons_self a t)))
      (fun x hx => h x (List.mem_cons_of_mem a hx))

theorem listMin_nonneg (l : List Rat) (h : ∀ x ∈ l, 0 ≤ x) : 0 ≤ listMin l := by
  cases l with
  | nil => exact le_refl 0
  | cons a t =>
    exact foldl_min_nonneg t a (h a (List.mem_cons_self a t))
      (fun x hx => h x (List.mem_cons_of_mem a hx))

theorem calcReactionTimes_mem_unit (gs : List (String × List GameEvent)) :
    0 ≤ calcReactionTimes gs ∧ calcReactionTimes gs ≤ 1 := by
  simp only [calcReactionTimes]
  split_ifs
  · norm_num
  · exact ⟨clamp01_nonneg _, clamp01_le_one _⟩

theorem calcPersistence_mem_unit (gs : List (String × List GameEvent)) :
    0 ≤ calcPersistence gs ∧ calcPersistence gs ≤ 1 := by
  simp only [calcPersistence]
  split_ifs
  · norm_num
  · norm_num
  · exact ⟨clamp01_nonneg _, clamp01_le_one _⟩

theorem calcErrorRecovery_mem_unit (gs : List (String × List GameEvent)) :
    0 ≤ calcErrorRecovery gs ∧ calcErrorRecovery gs ≤ 1 := by
  simp only [calcErrorRecovery]
  split_ifs with h1 h2
  · norm_num
  · norm_num
  · apply listMean_mem_unit
    · intro hnil
      rw [hnil] at h2
      exact absurd rfl h2
    · intro x hx
      obtain ⟨ee, _, rfl⟩ := List.mem_map.mp hx
      split_ifs with hsub
      · norm_num
      · constructor
        · exact le_max_left 0 _
        · rw [max_le_iff]
          refine ⟨by norm_num, ?_⟩
          have hrt : 0 ≤ listMin (((getGroup gs "choice" ++ getGroup gs "click").filter
              (fun e => decide (ee.timestamp < e.timestamp
                ∧ e.timestamp < ee.timestamp + 30))).map
              (fun e => e.timestamp - ee.timestamp)) := by
            apply listMin_nonneg
            intro x hx2
            obtain ⟨e2, he2, rfl⟩ := List.mem_map.mp hx2
            have := (List.mem_filter.mp he2).2
            simp only [decide_eq_true_eq] at this
            linarith [this.1]
          have : (0 : Rat) ≤ listMin _ / 30 := div_nonneg hrt (by norm_num)
          linarith

theorem dcValue_mem_unit (log2 : Rat → Rat) (pats : List String) :
    0 ≤ dcValue log2 pats ∧ dcValue log2 pats ≤ 1 := by
  simp only [dcValue]
  by_cases hc : (countsOf pats).length = 1
  · rw [if_pos hc]; norm_num
  · rw [if_neg hc]; exact ⟨clamp01_nonneg _, clamp01_le_one _⟩

theorem calcDecisionConsistency_ok_mem_unit (log2 : Rat → Rat)
    (gs : List (String × List GameEvent)) (v : Rat)
    (h : calcDecisionConsistency log2 gs = .ok v) : 0 ≤ v ∧ v ≤ 1 := by
  simp only [calcDecisionConsistency] at h
  split_ifs at h with h1
  · obtain rfl := (Except.ok.inj h).symm
    norm_num
  · obtain ⟨pats, _, hf⟩ := (bindE_ok_iff _ _ _).mp h
    obtain rfl := (Except.ok.inj hf).symm
    exact dcValue_mem_unit log2 pats

theorem calcExploration_ok_mem_unit (gs : List (String × List GameEvent)) (v : Rat)
    (h : calcExploration gs = .ok v) : 0 ≤ v ∧ v ≤ 1 := by
  simp only [calcExploration] at h
  obtain ⟨e1, _, hf⟩ := (bindE_ok_iff _ _ _).mp h
  by_cases h1 : (getGroup gs "choice").isEmpty = true
  · rw [if_pos h1] at hf
    obtain rfl := (Except.ok.inj hf).symm
    exact ⟨clamp01_nonneg _, clamp01_le_one _⟩
  · rw [if_neg h1] at hf
    obtain ⟨choices, _, hf2⟩ := (bindE_ok_iff _ _ _).mp hf
    obtain rfl := (Except.ok.inj hf2).symm
    exact ⟨clamp01_nonneg _, clamp01_le_one _⟩

/-- C8: whenever `process_events` returns, the returned dictionary
has exactly the nine documented metric keys and every value lies in
`[0, 1]`. -/
theorem process_events_unit_invariant (log2 : Rat → Rat) (events : List EventDict)
    (m : Metrics) (h : process_events log2 events = .ok m) :
    m.toAssoc.map Prod.fst =
      ["avg_reaction_time", "decision_consistency", "exploration_score",
       "error_recovery", "persistence", "logic_score", "creativity_score",
       "social_score", "technical_score"]
    ∧ ∀ p ∈ m.toAssoc, 0 ≤ p.2 ∧ p.2 ≤ 1 := by
  unfold process_events at h
  by_cases hemp : (events.map toGameEvent).isEmpty = true
  · rw [if_pos hemp] at h
    obtain rfl := Except.ok.inj h
    refine ⟨rfl, ?_⟩
    intro p hp
    fin_cases hp <;> constructor <;> with_unfolding_all decide
  · rw [if_neg hemp] at h
    cases hdc : calcDecisionConsistency log2 (groupEventsByType (events.map toGameEvent)) with
    | error e => rw [hdc] at h; cases h
    | ok dc =>
      rw [hdc] at h
      cases hex : calcExploration (groupEventsByType (events.map toGameEvent)) with
      | error e => rw [hex] at h; cases h
      | ok ex =>
        rw [hex] at h
        cases hv : assessCreativeVariety (groupEventsByType (events.map toGameEvent)) with
        | error e => rw [hv] at h; cases h
        | ok variety =>
          rw [hv] at h
          obtain rfl := Except.ok.inj h
          refine ⟨rfl, ?_⟩
          intro p hp
          simp only [Metrics.toAssoc, buildMetrics, List.mem_cons,
            List.not_mem_nil, or_false] at hp
          rcases hp with rfl | rfl | rfl | rfl | rfl | rfl | rfl | rfl | rfl
          · exact calcReactionTimes_mem_unit _
          · exact calcDecisionConsistency_ok_mem_unit log2 _ dc hdc
          · exact calcExploration_ok_mem_unit _ ex hex
          · exact calcErrorRecovery_mem_unit _
          · exact calcPersistence_mem_unit _
          · exact ⟨clamp01_nonneg _, clamp01_le_one _⟩
          · exact ⟨clamp01_nonneg _, clamp01_le_one _⟩
          · exact ⟨clamp01_nonneg _, clamp01_le_one _⟩
          · exact ⟨clamp01_nonneg _, clamp01_le_one _⟩

/-- C8 witness: the empty event list. -/
theorem process_events_unit_invariant_witness :
    defaultMetrics.toAssoc.map Prod.fst =
      ["avg_reaction_time", "decision_consistency", "exploration_score",
       "error_recovery", "persistence", "logic_score", "creativity_score",
       "social_score", "technical_score"]
    ∧ 0 ≤ defaultMetrics.error_recovery ∧ defaultMetrics.error_recovery ≤ 1 := by
  have H := process_events_unit_invariant (fun _ => 0) [] defaultMetrics rfl
  exact ⟨H.1, H.2 ("error_recovery", defaultMetrics.error_recovery)
    (by simp [Metrics.toAssoc])⟩

/-! ## C9 -/

theorem mapME_ok {α β : Type} (f : α → Except PErr β) (l : List α)
    (h : ∀ x ∈ l, ∃ b, f x = .ok b) : ∃ bs, mapME f l = .ok bs := by
  induction l with
  | nil => exact ⟨[], rfl⟩
  | cons a t ih =>
    obtain ⟨b, hb⟩ := h a (List.mem_cons_self a t)
    obtain ⟨bs, hbs⟩ := ih (fun x hx => h x (List.mem_cons_of_mem a hx))
    exact ⟨b :: bs, by rw [mapME, hb, bindE_ok, hbs, bindE_ok]⟩

/-- C9 counterexample: a single `choice` event whose `data` field is
not a mapping makes `process_events` raise (`AttributeError` in the
exploration metric) instead of degrading to a neutral default. -/
theorem process_events_raises_counterexample :
    process_events (fun _ => 0)
      [{ event_type := some "choice", timestamp := some 1, data := some .notMapping }]
      = .error .attributeError := by
  with_unfolding_all decide

/-- C9 (amended): `process_events` never raises on event
dictionaries with missing fields, PROVIDED every present `data`
field is a mapping (events are modelled with numeric timestamps and
numeric mouse coordinates; a non-mapping `data` value raises, see
the counterexample). -/
theorem process_events_total_on_mappings (log2 : Rat → Rat) (events : List EventDict)
    (h : ∀ ed ∈ events, ed.data ≠ some PyData.notMapping) :
    ∃ m, process_events log2 events = .ok m := by
  by_cases hemp : (events.map toGameEvent).isEmpty = true
  · exact ⟨defaultMetrics, by unfold process_events; rw [if_pos hemp]⟩
  · have hdata : ∀ e ∈ events.map toGameEvent, ∃ dm, e.data = .map dm := by
      intro e he
      obtain ⟨ed, hed, rfl⟩ := List.mem_map.mp he
      cases hd : ed.data with
      | none => exact ⟨{}, by simp [toGameEvent, hd]⟩
      | some d =>
        cases d with
        | map dm => exact ⟨dm, by simp [toGameEvent, hd]⟩
        | notMapping => exact absurd hd (h ed hed)
    have hsub : ∀ (t : String),
        ∀ e ∈ getGroup (groupEventsByType (events.map toGameEvent)) t,
          ∃ dm, e.data = .map dm := by
      intro t e he
      rw [getGroup_groupEventsByType] at he
      exact hdata e (List.mem_filter.mp he).1
    have hdc : ∃ dc, calcDecisionConsistency log2
        (groupEventsByType (events.map toGameEvent)) = .ok dc := by
      unfold calcDecisionConsistency
      by_cases hlen : (getGroup (groupEventsByType (events.map toGameEvent)) "choice").length < 3
      · rw [if_pos hlen]; exact ⟨0.5, rfl⟩
      · rw [if_neg hlen]
        obtain ⟨pats, hp⟩ := mapME_ok (fun e => dataGetChoiceCategory e.data)
          (getGroup (groupEventsByType (events.map toGameEvent)) "choice")
          (fun e he => by
            obtain ⟨dm, hdm⟩ := hsub "choice" e he
            refine ⟨dm.choice_category.getD "unknown", ?_⟩
            show dataGetChoiceCategory e.data = _
            rw [hdm]; rfl)
        rw [hp, bindE_ok]
        exact ⟨_, rfl⟩
    have hstep1 : ∃ e1, explorationStep1
        (groupEventsByType (events.map toGameEvent)) = .ok e1 := by
      unfold explorationStep1
      by_cases hm : (getGroup (groupEventsByType (events.map toGameEvent)) "mouse_move").isEmpty = true
      · rw [if_pos hm]; exact ⟨0.5, rfl⟩
      · rw [if_neg hm]
        obtain ⟨ps, hp⟩ := mapME_ok
          (fun e => bindE (dataGetX e.data) (fun x =>
            bindE (dataGetY e.data) (fun y => .ok (x, y))))
          (getGroup (groupEventsByType (events.map toGameEvent)) "mouse_move")
          (fun e he => by
            obtain ⟨dm, hdm⟩ := hsub "mouse_move" e he
            refine ⟨(dm.x.getD 0, dm.y.getD 0), ?_⟩
            show bindE (dataGetX e.data) (fun x =>
              bindE (dataGetY e.data) (fun y => .ok (x, y))) = _
            rw [hdm]; rfl)
        rw [hp, bindE_ok]
        by_cases hl : 10 < ps.length
        · rw [if_pos hl]; exact ⟨_, rfl⟩
        · rw [if_neg hl]; exact ⟨0.5, rfl⟩
    have hex : ∃ ex, calcExploration
        (groupEventsByType (events.map toGameEvent)) = .ok ex := by
      obtain ⟨e1, h1⟩ := hstep1
      unfold calcExploration
      rw [h1, bindE_ok]
      by_cases hc : (getGroup (groupEventsByType (events.map toGameEvent)) "choice").isEmpty = true
      · rw [if_pos hc]; exact ⟨_, rfl⟩
      · rw [if_neg hc]
        obtain ⟨cs, hcs⟩ := mapME_ok (fun e => dataGetChoice e.data)
          (getGroup (groupEventsByType (events.map toGameEvent)) "choice")
          (fun e he => by
            obtain ⟨dm, hdm⟩ := hsub "choice" e he
            refine ⟨dm.choice.getD "", ?_⟩
            show dataGetChoice e.data = _
            rw [hdm]; rfl)
        rw [hcs, bindE_ok]
        exact ⟨_, rfl⟩
    have hv : ∃ vr, assessCreativeVariety
        (groupEventsByType (events.map toGameEvent)) = .ok vr := by
      unfold assessCreativeVariety
      by_cases hc : (getGroup (groupEventsByType (events.map toGameEvent)) "creative_input").isEmpty = true
      · rw [if_pos hc]; exact ⟨0.5, rfl⟩
      · rw [if_neg hc]
        obtain ⟨ts, hts⟩ := mapME_ok (fun e => dataGetInputType e.data)
          (getGroup (groupEventsByType (events.map toGameEvent)) "creative_input")
          (fun e he => by
            obtain ⟨dm, hdm⟩ := hsub "creative_input" e he
            refine ⟨dm.input_type.getD "text", ?_⟩
            show dataGetInputType e.data = _
            rw [hdm]; rfl)
        rw [hts, bindE_ok]
        exact ⟨_, rfl⟩
    obtain ⟨dc, hdc⟩ := hdc
    obtain ⟨ex, hex⟩ := hex
    obtain ⟨vr, hv⟩ := hv
    refine ⟨buildMetrics (groupEventsByType (events.map toGameEvent)) dc ex vr, ?_⟩
    unfold process_events
    rw [if_neg hemp, hdc, hex, hv]

/-- C9 witness: a well-formed mapping-data event and an event with
every field missing. -/
theorem process_events_total_on_mappings_witness :
    exceptOk (process_events (fun _ => 0)
      [{ event_type := some "choice", timestamp := some 1, data := some (.map {}) },
       ({} : EventDict)]) = true := by
  obtain ⟨m, hm⟩ := process_events_total_on_mappings (fun _ => 0)
    [{ event_type := some "choice", timestamp := some 1, data := some (.map {}) },
     ({} : EventDict)] (by decide)
  rw [hm]
  rfl

/-! ## C4 -/

/-- C4: whenever the generated text lacks `\x7b` or lacks `\x7d`,
`analyze_responses` does not raise: it returns the behavioral-only
fallback, whose five ability scores are the mapped behavioral
metrics (default 0.5) times 100 and whose confidence is at most 0.6. -/
theorem analyze_responses_malformed_fallback (loads : String → Option Json)
    (text : String) (b : List (String × Rat))
    (h : ('{' ∈ text.toList → False) ∨ ('}' ∈ text.toList → False)) :
    analyze_responses loads (.ok text) b = .ok (generate_fallback_analysis b)
    ∧ jsonField (generate_fallback_analysis b) "ability_scores"
        = some (.obj
          [("analytical", .num (bget b "logic_score" 0.5 * 100)),
           ("creative", .num (bget b "creativity_score" 0.5 * 100)),
           ("social", .num (bget b "social_score" 0.5 * 100)),
           ("technical", .num (bget b "technical_score" 0.5 * 100)),
           ("research", .num (bget b "exploration_score" 0.5 * 100))])
    ∧ ∃ c : Rat, jsonField (generate_fallback_analysis b) "confidence"
        = some (.num c) ∧ c ≤ 0.6 := by
  have hs : braceSpan text = none := braceSpan_eq_none text h
  refine ⟨?_, rfl, ⟨0.6, rfl, le_refl _⟩⟩
  simp [analyze_responses, parse_analysis_result, hs]

/-- C4 witness: a braceless generated text with one behavioral
metric present. -/
theorem analyze_responses_malformed_fallback_witness :
    analyze_responses (fun _ => none) (.ok "hello, no json at all")
        [("technical_score", 0.9)]
      = .ok (generate_fallback_analysis [("technical_score", 0.9)])
    ∧ jsonField (generate_fallback_analysis [("technical_score", 0.9)])
        "ability_scores"
        = some (.obj
          [("analytical", .num (bget [("technical_score", (0.9 : Rat))] "logic_score" 0.5 * 100)),
           ("creative", .num (bget [("technical_score", (0.9 : Rat))] "creativity_score" 0.5 * 100)),
           ("social", .num (bget [("technical_score", (0.9 : Rat))] "social_score" 0.5 * 100)),
           ("technical", .num (bget [("technical_score", (0.9 : Rat))] "technical_score" 0.5 * 100)),
           ("research", .num (bget [("technical_score", (0.9 : Rat))] "exploration_score" 0.5 * 100))]) := by
  have H := analyze_responses_malformed_fallback (fun _ => none)
    "hello, no json at all" [("technical_score", 0.9)] (Or.inl (by decide))
  exact ⟨H.1, H.2.1⟩

/-! ## C5 -/

theorem generateQuestionGo_all_fail (loads : String → Option Json)
    (stage now : String) (prev : List String) :
    ∀ os : List (Except PErr String),
      (∀ o ∈ os, attemptQuestion loads stage now prev o = none) →
      generateQuestionGo loads stage now prev os = generate_fallback_question stage now := by
  intro os
  induction os with
  | nil => intro _; rfl
  | cons o rest ih =>
    intro h
    have ho := h o (List.mem_cons_self o rest)
    have hrest := ih (fun x hx => h x (List.mem_cons_of_mem o hx))
    simp [generateQuestionGo, ho, hrest]

/-- C5: `generate_question` uses at most the first 3 call outcomes;
when every attempt fails (call error, parse error, or duplicate), it
returns the static fallback question for the stage (the "analytical"
entry when the stage is unrecognized), which has
`type = "multiple_choice"` and at least 4 choices. -/
theorem generate_question_all_fail_fallback (loads : String → Option Json)
    (stage now : String) (outcomes : List (Except PErr String)) (prev : List String)
    (h : ∀ o ∈ outcomes.take 3, attemptQuestion loads stage now prev o = none) :
    generate_question loads stage now outcomes prev = generate_fallback_question stage now
    ∧ generate_question loads stage now (outcomes.take 3) prev
        = generate_question loads stage now outcomes prev
    ∧ jsonField (generate_fallback_question stage now) "type"
        = some (.str "multiple_choice")
    ∧ ∃ cs : List Json, jsonField (generate_fallback_question stage now) "choices"
        = some (.arr cs) ∧ 4 ≤ cs.length := by
  refine ⟨generateQuestionGo_all_fail loads stage now prev _ h, ?_, ?_, ?_⟩
  · unfold generate_question
    rw [List.take_take, min_self]
  · unfold generate_fallback_question jsonField fallbackQuestionBase
    split_ifs <;> rfl
  · unfold generate_fallback_question jsonField fallbackQuestionBase
    split_ifs <;> exact ⟨_, rfl, by decide⟩

/-- C5 witness: three failing attempts (service error, braceless
text, undecodable span) for stage "analytical". -/
theorem generate_question_all_fail_fallback_witness :
    generate_question (fun _ => none) "analytical" "t"
        [.error .serviceError, .ok "x", .ok "\x7b\x7d"] []
      = generate_fallback_question "analytical" "t"
    ∧ jsonField (generate_fallback_question "analytical" "t") "type"
      = some (.str "multiple_choice") := by
  have H := generate_question_all_fail_fallback (fun _ => none) "analytical" "t"
    [.error .serviceError, .ok "x", .ok "\x7b\x7d"] []
    (by intro o ho; fin_cases ho <;> rfl)
  exact ⟨H.1, H.2.2.1⟩

/-! ## C10 -/

theorem pyLower_length (s : String) : (pyLower s).length = s.length := by
  show (s.toList.map pyLowerChar).length = s.length
  rw [List.length_map]
  rfl

/-- C10: the duplicate test flags a question only when both the
lowered new text and the cached text are longer than 30 characters
and the new text's first 50 lowered characters occur inside the
cached text's first 50 lowered characters; hence a question of at
most 30 characters is never a duplicate, even if identical to a
cached one. -/
theorem is_duplicate_question_characterization (qd : Json) (q : String)
    (prevs : List String)
    (hq : pyDictGet qd "question" (.str "") = .ok (.str q)) :
    (is_duplicate_question qd prevs = .ok true
      ↔ ∃ p ∈ prevs, 30 < (pyLower q).length ∧ 30 < p.length
          ∧ charsInfixOf ((pyLower q).toList.take 50) ((pyLower p).toList.take 50) = true)
    ∧ (q.length ≤ 30 → is_duplicate_question qd prevs = .ok false) := by
  cases hemp : prevs.isEmpty with
  | true =>
    have hnil : prevs = [] := List.isEmpty_iff.mp hemp
    subst hnil
    constructor
    · constructor
      · intro h
        unfold is_duplicate_question at h
        exact Bool.noConfusion (Except.ok.inj h)
      · rintro ⟨p, hp, _⟩
        cases hp
    · intro _
      rfl
  | false =>
    unfold is_duplicate_question
    rw [hemp]
    simp only [Bool.false_eq_true, if_false]
    rw [hq]
    constructor
    · simp only [Except.ok.injEq]
      rw [List.any_eq_true]
      constructor
      · rintro ⟨p, hp, hf⟩
        simp only [Bool.and_eq_true, decide_eq_true_eq] at hf
        exact ⟨p, hp, hf.1.1, hf.1.2, hf.2⟩
      · rintro ⟨p, hp, h1, h2, h3⟩
        refine ⟨p, hp, ?_⟩
        simp only [Bool.and_eq_true, decide_eq_true_eq]
        exact ⟨⟨h1, h2⟩, h3⟩
    · intro hlen
      simp only [Except.ok.injEq]
      rw [List.any_eq_false]
      intro p hp
      have : decide (30 < (pyLower q).length) = false := by
        simp only [decide_eq_false_iff_not, not_lt]
        rw [pyLower_length]
        exact hlen
      simp [this]

/-- C10 witness: a 3-character question identical to a cached one is
not flagged as a duplicate. -/
theorem is_duplicate_question_characterization_witness :
    ("Abc" : String).length ≤ 30
    ∧ is_duplicate_question (.obj [("question", .str "Abc")]) ["Abc"] = .ok false :=
  ⟨by decide,
   (is_duplicate_question_characterization (.obj [("question", .str "Abc")])
      "Abc" ["Abc"] rfl).2 (by decide)⟩

/-- C3 witness: a failing call and an unparseable generated text both
produce the fallback. -/
theorem analyze_responses_fallback_on_failure_witness :
    analyze_responses (fun _ => none) (.error .serviceError) [("logic_score", 1)]
      = .ok (generate_fallback_analysis [("logic_score", 1)])
    ∧ analyze_responses (fun _ => none) (.ok "no braces here") []
      = .ok (generate_fallback_analysis []) :=
  ⟨(analyze_responses_fallback_on_failure (fun _ => none) [("logic_score", 1)]).1
      .serviceError,
   (analyze_responses_fallback_on_failure (fun _ => none) []).2 "no braces here" rfl⟩

/-! ## C6 supporting lemmas -/

theorem lookup_isSome_iff (l : List (String × Json)) (k : String) :
    (l.lookup k).isSome = true ↔ k ∈ l.map Prod.fst := by
  induction l with
  | nil => simp
  | cons p t ih =>
    obtain ⟨pk, pv⟩ := p
    by_cases h : k = pk
    · simp [List.lookup, h]
    · have hb : (k == pk) = false := beq_eq_false_iff_ne.mpr h
      simp [List.lookup, hb, ih, h]

theorem objSet_lookup_self (l : List (String × Json)) (k : String) (v : Json) :
    (objSet l k v).lookup k = some v := by
  induction l with
  | nil => simp [objSet, List.lookup]
  | cons p t ih =>
    obtain ⟨pk, pv⟩ := p
    by_cases h : pk = k
    · simp [objSet, h, List.lookup]
    · have hb : (k == pk) = false := beq_eq_false_iff_ne.mpr (fun hc => h hc.symm)
      simp [objSet, h, List.lookup, hb, ih]

theorem objSet_lookup_other (l : List (String × Json)) (k k2 : String) (v : Json)
    (h : k2 ≠ k) : (objSet l k v).lookup k2 = l.lookup k2 := by
  induction l with
  | nil =>
    have hb : (k2 == k) = false := beq_eq_false_iff_ne.mpr h
    simp [objSet, List.lookup, hb]
  | cons p t ih =>
    obtain ⟨pk, pv⟩ := p
    by_cases hpk : pk = k
    · subst hpk
      have hb : (k2 == pk) = false := beq_eq_false_iff_ne.mpr h
      simp [objSet, List.lookup, hb]
    · by_cases h2 : k2 = pk
      · subst h2
        simp [objSet, hpk, List.lookup]
      · have hb : (k2 == pk) = false := beq_eq_false_iff_ne.mpr h2
        simp [objSet, hpk, List.lookup, hb, ih]

theorem objSet_objSet (l : List (String × Json)) (k : String) (v w : Json) :
    objSet (objSet l k v) k w = objSet l k w := by
  induction l with
  | nil => simp [objSet]
  | cons p t ih =>
    obtain ⟨pk, pv⟩ := p
    by_cases hpk : pk = k
    · simp [objSet, hpk]
    · simp [objSet, hpk, ih]

theorem objSet_id (l : List (String × Json)) (k : String) (v : Json)
    (h : l.lookup k = some v) : objSet l k v = l := by
  induction l with
  | nil => simp [List.lookup] at h
  | cons p t ih =>
    obtain ⟨pk, pv⟩ := p
    by_cases hpk : pk = k
    · subst hpk
      simp only [List.lookup, beq_self_eq_true] at h
      obtain rfl := Option.some.inj h
      simp [objSet]
    · have hb : (k == pk) = false := beq_eq_false_iff_ne.mpr (fun hc => hpk hc.symm)
      simp only [List.lookup, hb] at h
      simp [objSet, hpk, ih h]

theorem pyAll_ok (j : Json) (keys : List String)
    (h : ∀ k ∈ keys, ∃ b, pyContains j k = .ok b) : ∃ b, pyAll j keys = .ok b := by
  induction keys with
  | nil => exact ⟨true, rfl⟩
  | cons k ks ih =>
    obtain ⟨b, hb⟩ := h k (List.mem_cons_self k ks)
    cases b
    · exact ⟨false, by rw [pyAll, hb, bindE_ok]; simp⟩
    · obtain ⟨b2, hb2⟩ := ih (fun x hx => h x (List.mem_cons_of_mem k hx))
      exact ⟨b2, by rw [pyAll, hb, bindE_ok]; simpa using hb2⟩

theorem pyAll_obj (l : List (String × Json)) (keys : List String) :
    pyAll (.obj l) keys = .ok (keys.all (fun k => decide (k ∈ l.map Prod.fst))) := by
  induction keys with
  | nil => rfl
  | cons k ks ih =>
    by_cases h : k ∈ l.map Prod.fst
    · have hc : pyContains (.obj l) k = .ok true := by simp [pyContains, h]
      rw [pyAll, hc, bindE_ok]
      simp only [if_true]
      rw [ih]
      simp [List.all_cons, h]
    · have hc : pyContains (.obj l) k = .ok false := by simp [pyContains, h]
      rw [pyAll, hc, bindE_ok]
      simp [List.all_cons, h]

theorem clamp0100_nonneg (x : Rat) : 0 ≤ max 0 (min 100 x) := le_max_left 0 _

theorem clamp0100_le (x : Rat) : max 0 (min 100 x) ≤ 100 := by
  rw [max_le_iff]
  exact ⟨by norm_num, min_le_left 100 x⟩

theorem normalizeScores_characterize (keys : List String) :
    ∀ l sl : List (String × Json), l.lookup "ability_scores" = some (.obj sl) →
      (((∃ r2, normalizeScores (.obj l) keys = .ok r2) ↔
          ∀ a ∈ keys, ∃ v, sl.lookup a = some v ∧ floatOk v)
        ∧ ∀ r2, normalizeScores (.obj l) keys = .ok r2 →
            ∃ sl2, r2 = .obj (objSet l "ability_scores" (.obj sl2))
              ∧ (∀ a ∈ keys, ∃ q, sl2.lookup a = some (.num q) ∧ 0 ≤ q ∧ q ≤ 100)
              ∧ (∀ b, b ∉ keys → sl2.lookup b = sl.lookup b)) := by
  induction keys with
  | nil =>
    intro l sl hsl
    constructor
    · constructor
      · intro _ a ha
        cases ha
      · intro _
        exact ⟨.obj l, rfl⟩
    · intro r2 h2
      obtain rfl := Except.ok.inj h2
      refine ⟨sl, ?_, ?_, ?_⟩
      · rw [objSet_id l "ability_scores" (.obj sl) hsl]
      · intro a ha
        cases ha
      · intro b _
        rfl
  | cons a rest ih =>
    intro l sl hsl
    have hg : pyGetItem (.obj l) "ability_scores" = .ok (.obj sl) := by
      simp [pyGetItem, hsl]
    have hunf : normalizeScores (.obj l) (a :: rest)
        = bindE (pyGetItem (.obj sl) a) (fun v =>
            bindE (pyFloat v) (fun f =>
              normalizeScores (.obj (objSet l "ability_scores"
                (.obj (objSet sl a (.num (max 0 (min 100 f))))))) rest)) := by
      rw [normalizeScores, hg, bindE_ok]
      simp only [pySetItem, bindE_ok]
    cases hv : sl.lookup a with
    | none =>
      have hga : pyGetItem (.obj sl) a = .error .keyError := by simp [pyGetItem, hv]
      constructor
      · constructor
        · rintro ⟨r2, hr2⟩
          rw [hunf, hga, bindE_error] at hr2
          cases hr2
        · intro hall
          obtain ⟨v, hv2, _⟩ := hall a (List.mem_cons_self a rest)
          rw [hv] at hv2
          cases hv2
      · intro r2 hr2
        rw [hunf, hga, bindE_error] at hr2
        cases hr2
    | some v =>
      have hga : pyGetItem (.obj sl) a = .ok v := by simp [pyGetItem, hv]
      cases hf : pyFloat v with
      | error e =>
        constructor
        · constructor
          · rintro ⟨r2, hr2⟩
            rw [hunf, hga, bindE_ok, hf, bindE_error] at hr2
            cases hr2
          · intro hall
            obtain ⟨v2, hv2, q, hq⟩ := hall a (List.mem_cons_self a rest)
            rw [hv] at hv2
            obtain rfl := Option.some.inj hv2
            rw [hf] at hq
            cases hq
        · intro r2 hr2
          rw [hunf, hga, bindE_ok, hf, bindE_error] at hr2
          cases hr2
      | ok f =>
        have hsl2 : (objSet l "ability_scores"
            (.obj (objSet sl a (.num (max 0 (min 100 f)))))).lookup "ability_scores"
            = some (.obj (objSet sl a (.num (max 0 (min 100 f))))) :=
          objSet_lookup_self l "ability_scores" _
        obtain ⟨IH1, IH2⟩ := ih (objSet l "ability_scores"
          (.obj (objSet sl a (.num (max 0 (min 100 f))))))
          (objSet sl a (.num (max 0 (min 100 f)))) hsl2
        have hstep : normalizeScores (.obj l) (a :: rest)
            = normalizeScores (.obj (objSet l "ability_scores"
                (.obj (objSet sl a (.num (max 0 (min 100 f))))))) rest := by
          rw [hunf, hga, bindE_ok, hf, bindE_ok]
        constructor
        · rw [hstep, IH1]
          constructor
          · intro hrest a2 ha2
            rcases List.mem_cons.mp ha2 with rfl | h2
            · exact ⟨v, hv, ⟨f, hf⟩⟩
            · obtain ⟨v2, hv2, hfl⟩ := hrest a2 h2
              by_cases heq : a2 = a
              · exact ⟨v, heq ▸ hv, ⟨f, hf⟩⟩
              · rw [objSet_lookup_other sl a a2 _ heq] at hv2
                exact ⟨v2, hv2, hfl⟩
          · intro hall a2 ha2
            by_cases heq : a2 = a
            · subst heq
              exact ⟨.num (max 0 (min 100 f)), objSet_lookup_self sl a2 _,
                ⟨max 0 (min 100 f), rfl⟩⟩
            · obtain ⟨v2, hv2, hfl⟩ := hall a2 (List.mem_cons_of_mem a ha2)
              exact ⟨v2, by rw [objSet_lookup_other sl a a2 _ heq]; exact hv2, hfl⟩
        · intro r2 hr2
          rw [hstep] at hr2
          obtain ⟨sl2, hshape, hclamped, huntouched⟩ := IH2 r2 hr2
          refine ⟨sl2, ?_, ?_, ?_⟩
          · rw [hshape, objSet_objSet]
          · intro a2 ha2
            rcases List.mem_cons.mp ha2 with rfl | h2
            · by_cases hmem : a2 ∈ rest
              · exact hclamped a2 hmem
              · refine ⟨max 0 (min 100 f), ?_, clamp0100_nonneg f, clamp0100_le f⟩
                rw [huntouched a2 hmem, objSet_lookup_self]
            · exact hclamped a2 h2
          · intro b hb
            have hbrest : b ∉ rest := fun hc => hb (List.mem_cons_of_mem a hc)
            have hba : b ≠ a := fun hc => hb (hc ▸ List.mem_cons_self a rest)
            rw [huntouched b hbrest, objSet_lookup_other sl a b _ hba]

theorem normalizeScores_nonobj (l : List (String × Json)) (s0 : Json)
    (hsl : l.lookup "ability_scores" = some s0)
    (hno : ∀ sl, s0 ≠ .obj sl) (a : String) (rest : List String) :
    ∀ r2, normalizeScores (.obj l) (a :: rest) = .ok r2 → False := by
  intro r2 h
  have hg : pyGetItem (.obj l) "ability_scores" = .ok s0 := by simp [pyGetItem, hsl]
  rw [normalizeScores, hg, bindE_ok] at h
  have hga : ∃ e, pyGetItem s0 a = .error e := by
    cases s0 with
    | obj sl => exact absurd rfl (hno sl)
    | null => exact ⟨.typeError, rfl⟩
    | bool b => exact ⟨.typeError, rfl⟩
    | num q => exact ⟨.typeError, rfl⟩
    | str s => exact ⟨.typeError, rfl⟩
    | arr xs => exact ⟨.typeError, rfl⟩
  obtain ⟨e, he⟩ := hga
  rw [he, bindE_error] at h
  cases h

theorem parseAnalysisJson_characterize (j : Json) :
    ((∃ r, parseAnalysisJson j = .ok r) ↔ analysisOkCond j)
    ∧ ∀ r, parseAnalysisJson j = .ok r →
        ∃ sl2, jsonField r "ability_scores" = some (.obj sl2)
          ∧ (∀ a ∈ abilityKeys, ∃ q, sl2.lookup a = some (.num q) ∧ 0 ≤ q ∧ q ≤ 100)
          ∧ ∃ c, jsonField r "confidence" = some (.num c) ∧ 0 ≤ c ∧ c ≤ 1 := by
  cases j with
  | null =>
    refine ⟨⟨fun ⟨r, hr⟩ => absurd hr (by intro h; cases h), ?_⟩, fun r hr => absurd hr (by intro h; cases h)⟩
    rintro ⟨l, sl, heq, _⟩
    cases heq
  | bool b =>
    refine ⟨⟨fun ⟨r, hr⟩ => absurd hr (by intro h; cases h), ?_⟩, fun r hr => absurd hr (by intro h; cases h)⟩
    rintro ⟨l, sl, heq, _⟩
    cases heq
  | num q =>
    refine ⟨⟨fun ⟨r, hr⟩ => absurd hr (by intro h; cases h), ?_⟩, fun r hr => absurd hr (by intro h; cases h)⟩
    rintro ⟨l, sl, heq, _⟩
    cases heq
  | str s =>
    obtain ⟨b1, hb1⟩ := pyAll_ok (.str s) requiredAnalysisKeys (fun k _ => ⟨_, rfl⟩)
    have hfail : ∀ r, parseAnalysisJson (.str s) = .ok r → False := by
      intro r hr
      rw [parseAnalysisJson, hb1, bindE_ok] at hr
      cases b1 with
      | false => simp at hr
      | true => simp only [if_true] at hr; rw [show pyGetItem (.str s) "ability_scores" = .error .typeError from rfl, bindE_error] at hr; cases hr
    refine ⟨⟨fun ⟨r, hr⟩ => absurd hr (fun hh => hfail r hh), ?_⟩, fun r hr => absurd hr (fun hh => hfail r hh)⟩
    rintro ⟨l, sl, heq, _⟩
    cases heq
  | arr xs =>
    obtain ⟨b1, hb1⟩ := pyAll_ok (.arr xs) requiredAnalysisKeys (fun k _ => ⟨_, rfl⟩)
    have hfail : ∀ r, parseAnalysisJson (.arr xs) = .ok r → False := by
      intro r hr
      rw [parseAnalysisJson, hb1, bindE_ok] at hr
      cases b1 with
      | false => simp at hr
      | true => simp only [if_true] at hr; rw [show pyGetItem (.arr xs) "ability_scores" = .error .typeError from rfl, bindE_error] at hr; cases hr
    refine ⟨⟨fun ⟨r, hr⟩ => absurd hr (fun hh => hfail r hh), ?_⟩, fun r hr => absurd hr (fun hh => hfail r hh)⟩
    rintro ⟨l, sl, heq, _⟩
    cases heq
  | obj l =>
    by_cases hreq : requiredAnalysisKeys.all (fun k => decide (k ∈ l.map Prod.fst)) = true
    · have hmemreq : ∀ k ∈ requiredAnalysisKeys, k ∈ l.map Prod.fst := by
        intro k hk
        exact of_decide_eq_true (List.all_eq_true.mp hreq k hk)
      have hsomeab : ∃ s0, l.lookup "ability_scores" = some s0 := by
        have := (lookup_isSome_iff l "ability_scores").mpr
          (hmemreq "ability_scores" (by simp [requiredAnalysisKeys]))
        exact Option.isSome_iff_exists.mp this
      obtain ⟨s0, hs0⟩ := hsomeab
      have hg : pyGetItem (.obj l) "ability_scores" = .ok s0 := by simp [pyGetItem, hs0]
      have hstart : ∀ r, parseAnalysisJson (.obj l) = .ok r ↔
          bindE (pyAll s0 abilityKeys) (fun ok2 =>
            if ok2 then
              bindE (normalizeScores (.obj l) abilityKeys) (fun result2 =>
                bindE (pyGetItem result2 "confidence") (fun conf =>
                  bindE (pyFloat conf) (fun c =>
                    pySetItem result2 "confidence" (.num (clamp01 c)))))
            else .error .valueError) = .ok r := by
        intro r
        rw [parseAnalysisJson, pyAll_obj, bindE_ok, hreq, if_pos rfl, hg, bindE_ok]
      cases s0 with
      | null =>
        refine ⟨⟨fun ⟨r, hr⟩ => ?_, ?_⟩, fun r hr => ?_⟩
        · rw [hstart r] at hr
          rw [show pyAll Json.null abilityKeys = .error .typeError from rfl, bindE_error] at hr
          cases hr
        · rintro ⟨l2, sl, heq, _, hab, _⟩
          cases heq
          rw [hs0] at hab
          cases hab
        · rw [hstart r] at hr
          rw [show pyAll Json.null abilityKeys = .error .typeError from rfl, bindE_error] at hr
          cases hr
      | bool b =>
        refine ⟨⟨fun ⟨r, hr⟩ => ?_, ?_⟩, fun r hr => ?_⟩
        · rw [hstart r] at hr
          rw [show pyAll (Json.bool b) abilityKeys = .error .typeError from rfl, bindE_error] at hr
          cases hr
        · rintro ⟨l2, sl, heq, _, hab, _⟩
          cases heq
          rw [hs0] at hab
          cases hab
        · rw [hstart r] at hr
          rw [show pyAll (Json.bool b) abilityKeys = .error .typeError from rfl, bindE_error] at hr
          cases hr
      | num q2 =>
        refine ⟨⟨fun ⟨r, hr⟩ => ?_, ?_⟩, fun r hr => ?_⟩
        · rw [hstart r] at hr
          rw [show pyAll (Json.num q2) abilityKeys = .error .typeError from rfl, bindE_error] at hr
          cases hr
        · rintro ⟨l2, sl, heq, _, hab, _⟩
          cases heq
          rw [hs0] at hab
          cases hab
        · rw [hstart r] at hr
          rw [show pyAll (Json.num q2) abilityKeys = .error .typeError from rfl, bindE_error] at hr
          cases hr
      | str s2 =>
        obtain ⟨b2, hb2⟩ := pyAll_ok (.str s2) abilityKeys (fun k _ => ⟨_, rfl⟩)
        have hfail : ∀ r, parseAnalysisJson (.obj l) = .ok r → False := by
          intro r hr
          rw [hstart r, hb2, bindE_ok] at hr
          cases b2 with
          | false => simp at hr
          | true =>
            simp only [if_true] at hr
            obtain ⟨r2, hnorm, _⟩ := (bindE_ok_iff _ _ _).mp hr
            exact normalizeScores_nonobj l (.str s2) hs0 (fun sl hh => by cases hh)
              "analytical" ["creative", "social", "technical", "research"] r2 hnorm
        refine ⟨⟨fun ⟨r, hr⟩ => absurd hr (fun hh => hfail r hh), ?_⟩,
          fun r hr => absurd hr (fun hh => hfail r hh)⟩
        rintro ⟨l2, sl, heq, _, hab, _⟩
        cases heq
        rw [hs0] at hab
        cases hab
      | arr xs2 =>
        obtain ⟨b2, hb2⟩ := pyAll_ok (.arr xs2) abilityKeys (fun k _ => ⟨_, rfl⟩)
        have hfail : ∀ r, parseAnalysisJson (.obj l) = .ok r → False := by
          intro r hr
          rw [hstart r, hb2, bindE_ok] at hr
          cases b2 with
          | false => simp at hr
          | true =>
            simp only [if_true] at hr
            obtain ⟨r2, hnorm, _⟩ := (bindE_ok_iff _ _ _).mp hr
            exact normalizeScores_nonobj l (.arr xs2) hs0 (fun sl hh => by cases hh)
              "analytical" ["creative", "social", "technical", "research"] r2 hnorm
        refine ⟨⟨fun ⟨r, hr⟩ => absurd hr (fun hh => hfail r hh), ?_⟩,
          fun r hr => absurd hr (fun hh => hfail r hh)⟩
        rintro ⟨l2, sl, heq, _, hab, _⟩
        cases heq
        rw [hs0] at hab
        cases hab
      | obj sl =>
        obtain ⟨NC1, NC2⟩ := normalizeScores_characterize abilityKeys l sl hs0
        by_cases hab : abilityKeys.all (fun k => decide (k ∈ sl.map Prod.fst)) = true
        · have hmemab : ∀ k ∈ abilityKeys, k ∈ sl.map Prod.fst := by
            intro k hk
            exact of_decide_eq_true (List.all_eq_true.mp hab k hk)
          have hsomeconf : ∃ c0, l.lookup "confidence" = some c0 := by
            have := (lookup_isSome_iff l "confidence").mpr
              (hmemreq "confidence" (by simp [requiredAnalysisKeys]))
            exact Option.isSome_iff_exists.mp this
          obtain ⟨c0, hc0⟩ := hsomeconf
          constructor
          · constructor
            · rintro ⟨r, hr⟩
              rw [hstart r, pyAll_obj, bindE_ok, hab, if_pos rfl] at hr
              obtain ⟨r2, hnorm, hrest⟩ := (bindE_ok_iff _ _ _).mp hr
              obtain ⟨sl2, hshape, _, _⟩ := NC2 r2 hnorm
              obtain ⟨conf, hconf, hrest2⟩ := (bindE_ok_iff _ _ _).mp hrest
              obtain ⟨cf, hcf, _⟩ := (bindE_ok_iff _ _ _).mp hrest2
              have hconfl : conf = c0 := by
                rw [hshape] at hconf
                simp only [pyGetItem] at hconf
                rw [objSet_lookup_other l "ability_scores" "confidence" _ (by decide),
                  hc0] at hconf
                simp only [] at hconf
                exact (Except.ok.inj hconf).symm
              refine ⟨l, sl, rfl, ?_, hs0, NC1.mp ⟨r2, hnorm⟩, ⟨c0, hc0, ?_⟩⟩
              · intro k hk
                rw [lookup_isSome_iff]
                exact hmemreq k hk
              · rw [← hconfl]
                exact ⟨cf, hcf⟩
            · rintro ⟨l2, sl3, heq, hkeys, hs0b, habl, c, hc, q, hq⟩
              cases heq
              rw [hs0] at hs0b
              obtain rfl := Json.obj.inj (Option.some.inj hs0b)
              obtain ⟨r2, hnorm⟩ := NC1.mpr habl
              obtain ⟨sl2, hshape, _, _⟩ := NC2 r2 hnorm
              refine ⟨.obj (objSet (objSet l "ability_scores" (.obj sl2)) "confidence"
                (.num (clamp01 q))), ?_⟩
              rw [hstart _, pyAll_obj, bindE_ok, hab, if_pos rfl]
              apply (bindE_ok_iff _ _ _).mpr
              refine ⟨r2, hnorm, ?_⟩
              have hgc : pyGetItem r2 "confidence" = .ok c := by
                rw [hshape]
                simp only [pyGetItem]
                rw [objSet_lookup_other l "ability_scores" "confidence" _ (by decide), hc]
              rw [hgc, bindE_ok, hq, bindE_ok, hshape]
              rfl
          · intro r hr
            rw [hstart r, pyAll_obj, bindE_ok, hab, if_pos rfl] at hr
            obtain ⟨r2, hnorm, hrest⟩ := (bindE_ok_iff _ _ _).mp hr
            obtain ⟨sl2, hshape, hclamped, _⟩ := NC2 r2 hnorm
            obtain ⟨conf, hconf, hrest2⟩ := (bindE_ok_iff _ _ _).mp hrest
            obtain ⟨cf, hcf, hset⟩ := (bindE_ok_iff _ _ _).mp hrest2
            rw [hshape] at hset
            simp only [pySetItem] at hset
            obtain rfl := Except.ok.inj hset
            refine ⟨sl2, ?_, hclamped, ⟨clamp01 cf, ?_, clamp01_nonneg cf, clamp01_le_one cf⟩⟩
            · simp only [jsonField]
              rw [objSet_lookup_other _ "confidence" "ability_scores" _ (by decide),
                objSet_lookup_self]
            · simp only [jsonField]
              rw [objSet_lookup_self]
        · have hf : (abilityKeys.all (fun k => decide (k ∈ sl.map Prod.fst))) = false := by
            simp only [Bool.not_eq_true] at hab
            exact hab
          have hfail : ∀ r, parseAnalysisJson (.obj l) = .ok r → False := by
            intro r hr
            rw [hstart r, pyAll_obj, bindE_ok, hf] at hr
            simp at hr
          refine ⟨⟨fun ⟨r, hr⟩ => absurd hr (fun hh => hfail r hh), ?_⟩,
            fun r hr => absurd hr (fun hh => hfail r hh)⟩
          rintro ⟨l2, sl3, heq, hkeys, hs0b, habl, _⟩
          cases heq
          rw [hs0] at hs0b
          obtain rfl := Json.obj.inj (Option.some.inj hs0b)
          have : abilityKeys.all (fun k => decide (k ∈ sl.map Prod.fst)) = true := by
            rw [List.all_eq_true]
            intro k hk
            obtain ⟨v, hv, _⟩ := habl k hk
            exact decide_eq_true ((lookup_isSome_iff sl k).mp (by rw [hv]; rfl))
          rw [this] at hf
          cases hf
    · have hf : (requiredAnalysisKeys.all (fun k => decide (k ∈ l.map Prod.fst))) = false := by
        simp only [Bool.not_eq_true] at hreq
        exact hreq
      have hfail : ∀ r, parseAnalysisJson (.obj l) = .ok r → False := by
        intro r hr
        rw [parseAnalysisJson, pyAll_obj, bindE_ok, hf] at hr
        simp at hr
      refine ⟨⟨fun ⟨r, hr⟩ => absurd hr (fun hh => hfail r hh), ?_⟩,
        fun r hr => absurd hr (fun hh => hfail r hh)⟩
      rintro ⟨l2, sl3, heq, hkeys, _⟩
      cases heq
      have : requiredAnalysisKeys.all (fun k => decide (k ∈ l.map Prod.fst)) = true := by
        rw [List.all_eq_true]
        intro k hk
        exact decide_eq_true ((lookup_isSome_iff l k).mp (hkeys k hk))
      rw [this] at hf
      cases hf

theorem parseQuestionJson_characterize (j : Json) (stage now : String) :
    (∃ r, parseQuestionJson j stage now = .ok r) ↔ questionOkCond j := by
  cases j with
  | null =>
    refine ⟨fun ⟨r, hr⟩ => absurd hr (by intro h; cases h), ?_⟩
    rintro ⟨l, heq, _⟩
    cases heq
  | bool b =>
    refine ⟨fun ⟨r, hr⟩ => absurd hr (by intro h; cases h), ?_⟩
    rintro ⟨l, heq, _⟩
    cases heq
  | num q =>
    refine ⟨fun ⟨r, hr⟩ => absurd hr (by intro h; cases h), ?_⟩
    rintro ⟨l, heq, _⟩
    cases heq
  | str s =>
    have hfail : ∀ r, parseQuestionJson (.str s) stage now = .ok r → False := by
      intro r hr
      rw [parseQuestionJson, show pyContains (.str s) "question"
        = .ok (charsInfixOf "question".toList s.toList) from rfl, bindE_ok] at hr
      cases h1 : charsInfixOf "question".toList s.toList with
      | false => rw [h1] at hr; simp at hr
      | true =>
        rw [h1] at hr
        simp only [if_true] at hr
        rw [show pyContains (.str s) "choices"
          = .ok (charsInfixOf "choices".toList s.toList) from rfl, bindE_ok] at hr
        cases h2 : charsInfixOf "choices".toList s.toList with
        | false => rw [h2] at hr; simp at hr
        | true =>
          rw [h2] at hr
          simp only [if_true] at hr
          rw [show pyGetItem (.str s) "choices" = .error .typeError from rfl,
            bindE_error] at hr
          cases hr
    refine ⟨fun ⟨r, hr⟩ => absurd hr (fun hh => hfail r hh), ?_⟩
    rintro ⟨l, heq, _⟩
    cases heq
  | arr xs =>
    have hfail : ∀ r, parseQuestionJson (.arr xs) stage now = .ok r → False := by
      intro r hr
      rw [parseQuestionJson, show pyContains (.arr xs) "question"
        = .ok (xs.any (fun v => match v with | .str s2 => s2 == "question" | _ => false))
        from rfl, bindE_ok] at hr
      cases h1 : xs.any (fun v => match v with | .str s2 => s2 == "question" | _ => false) with
      | false => rw [h1] at hr; simp at hr
      | true =>
        rw [h1] at hr
        simp only [if_true] at hr
        rw [show pyContains (.arr xs) "choices"
          = .ok (xs.any (fun v => match v with | .str s2 => s2 == "choices" | _ => false))
          from rfl, bindE_ok] at hr
        cases h2 : xs.any (fun v => match v with | .str s2 => s2 == "choices" | _ => false) with
        | false => rw [h2] at hr; simp at hr
        | true =>
          rw [h2] at hr
          simp only [if_true] at hr
          rw [show pyGetItem (.arr xs) "choices" = .error .typeError from rfl,
            bindE_error] at hr
          cases hr
    refine ⟨fun ⟨r, hr⟩ => absurd hr (fun hh => hfail r hh), ?_⟩
    rintro ⟨l, heq, _⟩
    cases heq
  | obj l =>
    have hcq : pyContains (.obj l) "question"
        = .ok (decide ("question" ∈ l.map Prod.fst)) := rfl
    have hcc : pyContains (.obj l) "choices"
        = .ok (decide ("choices" ∈ l.map Prod.fst)) := rfl
    by_cases hq : "question" ∈ l.map Prod.fst
    · by_cases hc : "choices" ∈ l.map Prod.fst
      · obtain ⟨c0, hc0⟩ := Option.isSome_iff_exists.mp ((lookup_isSome_iff l "choices").mpr hc)
        have hg : pyGetItem (.obj l) "choices" = .ok c0 := by simp [pyGetItem, hc0]
        have hstart : ∀ r, parseQuestionJson (.obj l) stage now = .ok r ↔
            bindE (pyLen c0) (fun n =>
              if n < 2 then .error .valueError
              else
                bindE (pySetItem (.obj l) "stage" (.str stage)) (fun r1 =>
                  pySetItem r1 "generated_at" (.str now))) = .ok r := by
          intro r
          rw [parseQuestionJson, hcq, bindE_ok, decide_eq_true hq, if_pos rfl,
            hcc, bindE_ok, decide_eq_true hc, if_pos rfl, hg, bindE_ok]
        cases hlen : pyLen c0 with
        | error e =>
          constructor
          · rintro ⟨r, hr⟩
            rw [hstart r, hlen, bindE_error] at hr
            cases hr
          · rintro ⟨l2, heq, _, c, hcl, n, hn, _⟩
            cases heq
            rw [hc0] at hcl
            obtain rfl := Option.some.inj hcl
            rw [hlen] at hn
            cases hn
        | ok n =>
          by_cases hn2 : n < 2
          · constructor
            · rintro ⟨r, hr⟩
              rw [hstart r, hlen, bindE_ok, if_pos hn2] at hr
              cases hr
            · rintro ⟨l2, heq, _, c, hcl, n2, hn, hge⟩
              cases heq
              rw [hc0] at hcl
              obtain rfl := Option.some.inj hcl
              rw [hlen] at hn
              obtain rfl := Except.ok.inj hn
              exact absurd hn2 (not_lt_of_le hge)
          · constructor
            · intro _
              exact ⟨l, rfl, (lookup_isSome_iff l "question").mpr hq,
                ⟨c0, hc0, ⟨n, hlen, le_of_not_lt hn2⟩⟩⟩
            · intro _
              refine ⟨.obj (objSet (objSet l "stage" (.str stage)) "generated_at"
                (.str now)), ?_⟩
              rw [hstart _, hlen, bindE_ok, if_neg hn2]
              rfl
      · have hfail : ∀ r, parseQuestionJson (.obj l) stage now = .ok r → False := by
          intro r hr
          rw [parseQuestionJson, hcq, bindE_ok, decide_eq_true hq, if_pos rfl,
            hcc, bindE_ok] at hr
          rw [show (decide ("choices" ∈ l.map Prod.fst)) = false from
            decide_eq_false hc] at hr
          simp at hr
        refine ⟨fun ⟨r, hr⟩ => absurd hr (fun hh => hfail r hh), ?_⟩
        rintro ⟨l2, heq, _, c, hcl, _⟩
        cases heq
        exact (hc ((lookup_isSome_iff l "choices").mp (by rw [hcl]; rfl))).elim
    · have hfail : ∀ r, parseQuestionJson (.obj l) stage now = .ok r → False := by
        intro r hr
        rw [parseQuestionJson, hcq, bindE_ok] at hr
        rw [show (decide ("question" ∈ l.map Prod.fst)) = false from
          decide_eq_false hq] at hr
        simp at hr
      refine ⟨fun ⟨r, hr⟩ => absurd hr (fun hh => hfail r hh), ?_⟩
      rintro ⟨l2, heq, hqs, _⟩
      cases heq
      exact (hq ((lookup_isSome_iff l "question").mp hqs)).elim

theorem parse_analysis_result_span (loads : String → Option Json) (text : String)
    (sp : List Char) (hb : braceSpan text = some sp) :
    parse_analysis_result loads text
      = match loads (String.mk sp) with
        | none => .error .valueError
        | some result => parseAnalysisJson result := by
  unfold parse_analysis_result
  rw [hb]

theorem parse_question_result_span (loads : String → Option Json)
    (text stage now : String) (sp : List Char) (hb : braceSpan text = some sp) :
    parse_question_result loads text stage now
      = match loads (String.mk sp) with
        | none => .error .valueError
        | some result => parseQuestionJson result stage now := by
  unfold parse_question_result
  rw [hb]

theorem parse_analysis_result_ok_iff (loads : String → Option Json) (text : String) :
    (∃ r, parse_analysis_result loads text = .ok r)
      ↔ ∃ sp j, braceSpan text = some sp ∧ loads (String.mk sp) = some j
          ∧ analysisOkCond j := by
  cases hb : braceSpan text with
  | none =>
    constructor
    · rintro ⟨r, hr⟩
      unfold parse_analysis_result at hr
      rw [hb] at hr
      cases hr
    · rintro ⟨sp, j, hsp, _⟩
      cases hsp
  | some sp =>
    cases hl : loads (String.mk sp) with
    | none =>
      constructor
      · rintro ⟨r, hr⟩
        rw [parse_analysis_result_span loads text sp hb, hl] at hr
        cases hr
      · rintro ⟨sp2, j2, hsp2, hl2, _⟩
        obtain rfl := Option.some.inj hsp2
        rw [hl] at hl2
        cases hl2
    | some j =>
      constructor
      · rintro ⟨r, hr⟩
        rw [parse_analysis_result_span loads text sp hb, hl] at hr
        exact ⟨sp, j, rfl, hl, ((parseAnalysisJson_characterize j).1).mp ⟨r, hr⟩⟩
      · rintro ⟨sp2, j2, hsp2, hl2, hcond⟩
        obtain rfl := Option.some.inj hsp2
        rw [hl] at hl2
        obtain rfl := Option.some.inj hl2
        obtain ⟨r, hr⟩ := ((parseAnalysisJson_characterize j).1).mpr hcond
        refine ⟨r, ?_⟩
        rw [parse_analysis_result_span loads text sp hb, hl]
        exact hr

theorem parse_question_result_ok_iff (loads : String → Option Json)
    (text stage now : String) :
    (∃ r, parse_question_result loads text stage now = .ok r)
      ↔ ∃ sp j, braceSpan text = some sp ∧ loads (String.mk sp) = some j
          ∧ questionOkCond j := by
  cases hb : braceSpan text with
  | none =>
    constructor
    · rintro ⟨r, hr⟩
      unfold parse_question_result at hr
      rw [hb] at hr
      cases hr
    · rintro ⟨sp, j, hsp, _⟩
      cases hsp
  | some sp =>
    cases hl : loads (String.mk sp) with
    | none =>
      constructor
      · rintro ⟨r, hr⟩
        rw [parse_question_result_span loads text stage now sp hb, hl] at hr
        cases hr
      · rintro ⟨sp2, j2, hsp2, hl2, _⟩
        obtain rfl := Option.some.inj hsp2
        rw [hl] at hl2
        cases hl2
    | some j =>
      constructor
      · rintro ⟨r, hr⟩
        rw [parse_question_result_span loads text stage now sp hb, hl] at hr
        exact ⟨sp, j, rfl, hl, (parseQuestionJson_characterize j stage now).mp ⟨r, hr⟩⟩
      · rintro ⟨sp2, j2, hsp2, hl2, hcond⟩
        obtain rfl := Option.some.inj hsp2
        rw [hl] at hl2
        obtain rfl := Option.some.inj hl2
        obtain ⟨r, hr⟩ := (parseQuestionJson_characterize j stage now).mpr hcond
        refine ⟨r, ?_⟩
        rw [parse_question_result_span loads text stage now sp hb, hl]
        exact hr

/-- C6 counterexample: a decoded payload with a brace span, valid
decode, all required keys and all five ability keys present still
makes the analysis parser fail (the `analytical` score is `null`,
which `float()` rejects) — a failure case outside the claim's list. -/
theorem parser_exactly_when_counterexample :
    exceptOk (parse_analysis_result (fun _ => some (.obj
      [("ability_scores", .obj
        [("analytical", .null), ("creative", .num 50), ("social", .num 50),
         ("technical", .num 50), ("research", .num 50)]),
       ("confidence", .num 1), ("insights", .arr [])])) "\x7b\x7d") = false
    ∧ (braceSpan "\x7b\x7d").isSome = true
    ∧ (fun (_ : String) => some (Json.obj
      [("ability_scores", .obj
        [("analytical", .null), ("creative", .num 50), ("social", .num 50),
         ("technical", .num 50), ("research", .num 50)]),
       ("confidence", .num 1), ("insights", .arr [])])) "\x7b\x7d"
      = some (.obj
      [("ability_scores", .obj
        [("analytical", .null), ("creative", .num 50), ("social", .num 50),
         ("technical", .num 50), ("research", .num 50)]),
       ("confidence", .num 1), ("insights", .arr [])])
    ∧ pyAll (.obj
      [("ability_scores", .obj
        [("analytical", .null), ("creative", .num 50), ("social", .num 50),
         ("technical", .num 50), ("research", .num 50)]),
       ("confidence", .num 1), ("insights", .arr [])]) requiredAnalysisKeys = .ok true
    ∧ pyAll (.obj
        [("analytical", .null), ("creative", .num 50), ("social", .num 50),
         ("technical", .num 50), ("research", .num 50)]) abilityKeys = .ok true :=
  ⟨rfl, rfl, rfl, rfl, rfl⟩

/-- C6 (amended): the result parsers fail exactly when no brace span
exists, the span does not decode, the decoded payload is not shaped
as the validator requires (top level not a dictionary, required keys
absent, `ability_scores` not a dictionary with all five ability
keys, an ability score or the confidence not float-coercible; for
questions: `question`/`choices` absent, `choices` without a length,
or fewer than 2 choices); on success every ability score is a float
clamped to [0,100] and confidence a float clamped to [0,1]. -/
theorem parser_failure_characterization (loads : String → Option Json)
    (text stage now : String) :
    ((∃ r, parse_analysis_result loads text = .ok r)
      ↔ ∃ sp j, braceSpan text = some sp ∧ loads (String.mk sp) = some j
          ∧ analysisOkCond j)
    ∧ ((∃ r, parse_question_result loads text stage now = .ok r)
      ↔ ∃ sp j, braceSpan text = some sp ∧ loads (String.mk sp) = some j
          ∧ questionOkCond j)
    ∧ ∀ r, parse_analysis_result loads text = .ok r →
        ∃ sl2, jsonField r "ability_scores" = some (.obj sl2)
          ∧ (∀ a ∈ abilityKeys, ∃ q, sl2.lookup a = some (.num q) ∧ 0 ≤ q ∧ q ≤ 100)
          ∧ ∃ c, jsonField r "confidence" = some (.num c) ∧ 0 ≤ c ∧ c ≤ 1 := by
  refine ⟨parse_analysis_result_ok_iff loads text,
    parse_question_result_ok_iff loads text stage now, ?_⟩
  intro r hr
  cases hb : braceSpan text with
  | none =>
    unfold parse_analysis_result at hr
    rw [hb] at hr
    cases hr
  | some sp =>
    rw [parse_analysis_result_span loads text sp hb] at hr
    cases hl : loads (String.mk sp) with
    | none => rw [hl] at hr; cases hr
    | some j =>
      rw [hl] at hr
      exact (parseAnalysisJson_characterize j).2 r hr

/-- C6 witness: a fully valid decoded payload is accepted. -/
theorem parser_failure_characterization_witness :
    ∃ r, parse_analysis_result (fun _ => some (.obj
      [("ability_scores", .obj
        [("analytical", .num 90), ("creative", .num 70), ("social", .num 50),
         ("technical", .num 60), ("research", .num 40)]),
       ("confidence", .num 1), ("insights", .arr [])])) "\x7b\x7d" = .ok r :=
  (parser_failure_characterization (fun _ => some (.obj
      [("ability_scores", .obj
        [("analytical", .num 90), ("creative", .num 70), ("social", .num 50),
         ("technical", .num 60), ("research", .num 40)]),
       ("confidence", .num 1), ("insights", .arr [])])) "\x7b\x7d" "s" "t").1.mpr
    ⟨"\x7b\x7d".toList, _, rfl, rfl,
     ⟨_, _, rfl, by decide, rfl,
      by intro a ha; fin_cases ha <;> exact ⟨_, rfl, _, rfl⟩,
      ⟨.num 1, rfl, ⟨1, rfl⟩⟩⟩⟩
